import Mathlib

/-!
A shallow embedding, in Lean 4, of the player-scoring and lineup-assembly
engine of the BoringFantasyBot repository, together with theorems checking
the specification claims against it.

Conventions of the embedding:
* Python numbers appearing in odds payloads (totals, spreads, prop lines,
  probabilities) are modelled as rationals; American-odds prices and the
  accumulated betting scores are integers, exactly as in the source.
* Python `None` becomes `Option.none`; Python dict rows become structures.
* Python dicts used as maps become association lists (`List (String × _)`),
  whose keys are pairwise distinct when the corresponding claim needs it.
* `datetime` values are modelled by an integer timeline; a commence time is
  either absent, unparseable (the source swallows the parse error), or a
  point on that timeline.
* Python `list.sort` is a stable sort; it is modelled by `List.mergeSort`,
  which is also stable, with the matching boolean comparator.
-/

unseal List.merge List.mergeSort String.ltb String.mapAux String.splitOnAux Nat.gcd Rat.mul Rat.inv Rat.add Rat.sub

/-- One player-prop row of the odds payload handed to
`analyze_player_betting_data` (fields `market`, `outcome`, `price`, `point`
accessed with `.get`, hence optional). -/
structure PropEntry where
  market : String
  outcome : String
  price : Option Int
  point : Option Rat
  deriving DecidableEq, Repr

/-- The commence time attached to the game lines: absent, present but
unparseable (the source silently tolerates the parse failure), or an instant
on the integer timeline. -/
inductive Commence where
  | absent : Commence
  | unparseable : Commence
  | time : Int → Commence
  deriving DecidableEq, Repr

/-- The `game_lines` sub-record of the odds payload.  A missing `home_team`
key defaults to the empty string in the source (`.get('home_team', '')`). -/
structure GameLines where
  commence : Commence
  total : Option Rat
  spread : Option Rat
  home_team : String
  deriving DecidableEq, Repr

/-- The odds payload for one player: optional game lines plus the list of
prop entries (`odds_data.get('odds', [])`). -/
structure OddsData where
  game_lines : Option GameLines
  odds : List PropEntry
  deriving DecidableEq, Repr

/-- The empty odds record a player falls back to when the odds fetch fails
or matches nothing. -/
def emptyOdds : OddsData := { game_lines := none, odds := [] }

/-- The analysis dict built by `analyze_player_betting_data` (and then
mutated by the caller-side fallback and injury overlay). -/
structure Analysis where
  name : String
  team : String
  position : String
  game_total : Option Rat
  spread : Option Rat
  td_odds : Option Int
  reception_odds : Option Rat
  rush_odds : Option Rat
  score : Int
  insights : List String
  flex_eligible : Bool
  has_betting_data : Bool
  deriving DecidableEq, Repr

/-- Week filtering in `analyze_player_betting_data`: true when a parseable
commence time lies outside `[week_start, week_end]`; an absent or
unparseable commence time never filters (the source passes on the parse
exception). -/
def commenceOutsideWeek (c : Commence) (week_start week_end : Int) : Bool :=
  match c with
  | Commence.time t => !(decide (week_start ≤ t) && decide (t ≤ week_end))
  | _ => false

/-- Game-total scoring step (`if analysis['game_total']: ...`).  Python
truthiness makes a total of exactly 0 behave like a missing total. -/
def gameTotalPoints (total : Option Rat) : Int × List String :=
  match total with
  | none => (0, [])
  | some t =>
    if t = 0 then (0, [])
    else if 50 ≤ t then (3, ["🔥 High-scoring game"])
    else if 45 ≤ t then (1, ["📊 Good scoring potential"])
    else if t ≤ 40 then (-2, ["❄️  Low-scoring game"])
    else (0, [])

/-- Spread scoring step (`if analysis['spread']: ...`), relative to whether
the player team string equals the game-lines home team.  A spread of
exactly 0 is falsy and skipped. -/
def spreadPoints (team : String) (gl : GameLines) : Int × List String :=
  match gl.spread with
  | none => (0, [])
  | some s =>
    if s = 0 then (0, [])
    else
      if team = gl.home_team ∧ 3 < s then (2, ["🏠 Home favorite"])
      else if ¬ team = gl.home_team ∧ s < -3 then (2, ["✈️  Away favorite"])
      else if team = gl.home_team ∧ s < -3 then (-1, ["🏠 Home underdog"])
      else if ¬ team = gl.home_team ∧ 3 < s then (-1, ["✈️  Away underdog"])
      else (0, [])

/-- Accumulator of the first ("collection") pass over the prop entries: the
single best line per market.  The source also mirrors `best_td_price`,
`best_reception_line` and `best_rush_yds_line` into `analysis['td_odds']`,
`analysis['reception_odds']` and `analysis['rush_odds']` at every update, so
those dict entries always equal the accumulator cells and are copied out
once at the end here. -/
structure PropAcc where
  qb_pass_tds : Option Int
  qb_pass_yds : Option Rat
  qb_completions : Option Rat
  qb_attempts : Option Rat
  qb_rush : Option Rat
  best_td : Option Int
  best_reception : Option Rat
  best_rush : Option Rat
  deriving DecidableEq, Repr

/-- Initial accumulator: every best-line cell is `None`. -/
def initAcc : PropAcc :=
  { qb_pass_tds := none, qb_pass_yds := none, qb_completions := none,
    qb_attempts := none, qb_rush := none, best_td := none,
    best_reception := none, best_rush := none }

/-- `if best is None or price < best:` — keep the strictly smaller price. -/
def updMinStrict (cur : Option Int) (price : Int) : Option Int :=
  match cur with
  | none => some price
  | some b => if price < b then some price else some b

/-- `if best is None or point > best:` — keep the strictly larger line. -/
def updMaxStrict (cur : Option Rat) (point : Rat) : Option Rat :=
  match cur with
  | none => some point
  | some b => if b < point then some point else some b

/-- `min(best, price) if best is not None else price`. -/
def updMinP (cur : Option Int) (price : Int) : Option Int :=
  some (match cur with
        | none => price
        | some b => min b price)

/-- `max(best or 0, point)` — for the non-negative lines at play, `x or 0`
coincides with `Option.getD 0` (both send `None` and `0` to `0`). -/
def updMaxOr0 (cur : Option Rat) (point : Rat) : Option Rat :=
  some (max (cur.getD 0) point)

/-- Which accumulator cell one prop entry feeds, with the carried value. -/
inductive CellUpd where
  | td : Int → CellUpd
  | reception : Rat → CellUpd
  | rush : Rat → CellUpd
  | qbRush : Rat → CellUpd
  | qbPassTds : Int → CellUpd
  | qbPassYds : Rat → CellUpd
  | qbCompletions : Rat → CellUpd
  | qbAttempts : Rat → CellUpd
  deriving DecidableEq, Repr

/-- Dispatch of one prop entry in the collection pass.  The source has two
dispatch blocks (the market `if`/`elif` chain, then a separate `if position
== 'QB'` chain); their market keys are disjoint, so a single chain is an
equivalent rendering and each entry feeds at most one cell. -/
def classifyProp (position : String) (p : PropEntry) : Option CellUpd :=
  if p.market = "player_anytime_td" ∧ p.outcome = "Yes" then
    p.price.map CellUpd.td
  else if p.market = "player_receptions" ∧ p.outcome = "Over" then
    p.point.map CellUpd.reception
  else if p.market = "player_rush_yds" ∧ p.outcome = "Over" then
    p.point.map (fun pt => if position = "QB" then CellUpd.qbRush pt else CellUpd.rush pt)
  else if position = "QB" ∧ p.market = "player_pass_tds" ∧ p.outcome = "Over" then
    p.price.map CellUpd.qbPassTds
  else if position = "QB" ∧ p.market = "player_pass_yds" ∧ p.outcome = "Over" then
    p.point.map CellUpd.qbPassYds
  else if position = "QB" ∧ p.market = "player_pass_completions" ∧ p.outcome = "Over" then
    p.point.map CellUpd.qbCompletions
  else if position = "QB" ∧ p.market = "player_pass_attempts" ∧ p.outcome = "Over" then
    p.point.map CellUpd.qbAttempts
  else
    none

/-- Apply one cell update to the accumulator, with the source combinator of
that cell. -/
def applyUpd (acc : PropAcc) : CellUpd → PropAcc
  | CellUpd.td price => { acc with best_td := updMinStrict acc.best_td price }
  | CellUpd.reception pt => { acc with best_reception := updMaxStrict acc.best_reception pt }
  | CellUpd.rush pt => { acc with best_rush := updMaxStrict acc.best_rush pt }
  | CellUpd.qbRush pt => { acc with qb_rush := updMaxOr0 acc.qb_rush pt }
  | CellUpd.qbPassTds price => { acc with qb_pass_tds := updMinP acc.qb_pass_tds price }
  | CellUpd.qbPassYds pt => { acc with qb_pass_yds := updMaxOr0 acc.qb_pass_yds pt }
  | CellUpd.qbCompletions pt => { acc with qb_completions := updMaxOr0 acc.qb_completions pt }
  | CellUpd.qbAttempts pt => { acc with qb_attempts := updMaxOr0 acc.qb_attempts pt }

/-- One step of the collection pass over the prop list. -/
def propStep (position : String) (acc : PropAcc) (p : PropEntry) : PropAcc :=
  match classifyProp position p with
  | none => acc
  | some u => applyUpd acc u

/-- Anytime-TD scoring from the best (lowest) price, non-QB only. -/
def tdPoints (best : Option Int) : Int × List String :=
  match best with
  | none => (0, [])
  | some b =>
    if b < 0 then (3, ["🎯 TD favorite"])
    else if b < 200 then (1, ["🎯 TD contender"])
    else (0, ["🎲 TD long shot"])

/-- Reception-line scoring from the best (highest) line, non-QB only. -/
def receptionPoints (best : Option Rat) : Int × List String :=
  match best with
  | none => (0, [])
  | some b =>
    if 6 ≤ b then (2, ["📈 High reception expectation"])
    else if 4 ≤ b then (1, ["📈 Good reception potential"])
    else (0, [])

/-- Rush-yards scoring from the best (highest) line, non-QB only, with the
plausibility filter that discards WR lines above 30 and TE lines above 20. -/
def rushPointsNonQB (position : String) (best : Option Rat) : Int × List String :=
  match best with
  | none => (0, [])
  | some b =>
    if position = "WR" ∧ 30 < b then (0, [])
    else if position = "TE" ∧ 20 < b then (0, [])
    else if 80 ≤ b then (2, ["🏃 High rush expectation"])
    else if 50 ≤ b then (1, ["🏃 Good rush potential"])
    else (0, [])

/-- QB pass-TD scoring from the best (lowest) over-1.5 price. -/
def qbPassTdsPoints (best : Option Int) : Int × List String :=
  match best with
  | none => (0, [])
  | some b =>
    if b < 0 then (3, ["🎯 Pass TDs favored (o1.5)"])
    else (1, ["📈 Pass TDs viable (o1.5)"])

/-- QB pass-yards scoring from the best (highest) line. -/
def qbPassYdsPoints (best : Option Rat) : Int × List String :=
  match best with
  | none => (0, [])
  | some b =>
    if 275 ≤ b then (3, ["🚀 High pass yards expectation"])
    else if 250 ≤ b then (2, ["📈 Good pass yards expectation"])
    else if 225 ≤ b then (1, ["📊 Solid pass yards line"])
    else (0, [])

/-- QB completions scoring from the best (highest) line. -/
def qbCompletionsPoints (best : Option Rat) : Int × List String :=
  match best with
  | none => (0, [])
  | some b =>
    if 24.5 ≤ b then (2, ["📡 High completions expectation"])
    else if 21.5 ≤ b then (1, ["📡 Good completions line"])
    else (0, [])

/-- QB attempts scoring from the best (highest) line. -/
def qbAttemptsPoints (best : Option Rat) : Int × List String :=
  match best with
  | none => (0, [])
  | some b =>
    if 36.5 ≤ b then (2, ["🎯 High attempts expectation"])
    else if 33.5 ≤ b then (1, ["🎯 Good attempts line"])
    else (0, [])

/-- QB rushing scoring from the best (highest) line. -/
def qbRushPoints (best : Option Rat) : Int × List String :=
  match best with
  | none => (0, [])
  | some b =>
    if 35 ≤ b then (2, ["🏃 QB rushing upside"])
    else if 20 ≤ b then (1, ["🏃 QB rushing potential"])
    else (0, [])

/-- All non-QB prop contributions, in source order (TD, receptions, rush). -/
def nonQBPoints (position : String) (acc : PropAcc) : Int × List String :=
  let a := tdPoints acc.best_td
  let b := receptionPoints acc.best_reception
  let c := rushPointsNonQB position acc.best_rush
  (a.1 + b.1 + c.1, a.2 ++ b.2 ++ c.2)

/-- All QB prop contributions, in source order (pass TDs, pass yards,
completions, attempts, rushing). -/
def qbPoints (acc : PropAcc) : Int × List String :=
  let a := qbPassTdsPoints acc.qb_pass_tds
  let b := qbPassYdsPoints acc.qb_pass_yds
  let c := qbCompletionsPoints acc.qb_completions
  let d := qbAttemptsPoints acc.qb_attempts
  let e := qbRushPoints acc.qb_rush
  (a.1 + b.1 + c.1 + d.1 + e.1, a.2 ++ b.2 ++ c.2 ++ d.2 ++ e.2)

/-- Prop contributions after the collection pass: the source guards the two
scoring blocks with `if position != 'QB'` and `if position == 'QB'`. -/
def propPoints (position : String) (acc : PropAcc) : Int × List String :=
  if position = "QB" then qbPoints acc else nonQBPoints position acc

/-- The fresh analysis record built at the top of
`analyze_player_betting_data`. -/
def initAnalysis (player_name team position : String) : Analysis :=
  { name := player_name, team := team, position := position,
    game_total := none, spread := none, td_odds := none,
    reception_odds := none, rush_odds := none, score := 0, insights := [],
    flex_eligible := decide (position ∈ ["RB", "WR", "TE"]),
    has_betting_data := false }

/-- `analyze_player_betting_data` of `waiver_optimizer.py`: week filter,
game-line scoring, best-line collection over the props, then position-split
prop scoring.  The final score is the sum of the sequential `+=` updates of
the source, and the insights list concatenates them in the same order. -/
def analyze_player_betting_data (player_name team : String) (odds_data : OddsData)
    (position : String) (week_start week_end : Int) : Analysis :=
  let base := initAnalysis player_name team position
  match odds_data.game_lines with
  | some gl =>
    if commenceOutsideWeek gl.commence week_start week_end then
      { base with has_betting_data := false }
    else
      let gt := gameTotalPoints gl.total
      let sp := spreadPoints team gl
      let acc := odds_data.odds.foldl (propStep position) initAcc
      let pp := propPoints position acc
      { base with
        game_total := gl.total, spread := gl.spread,
        td_odds := acc.best_td, reception_odds := acc.best_reception,
        rush_odds := acc.best_rush,
        score := gt.1 + sp.1 + pp.1,
        insights := gt.2 ++ sp.2 ++ pp.2,
        has_betting_data := true }
  | none =>
    let acc := odds_data.odds.foldl (propStep position) initAcc
    let pp := propPoints position acc
    { base with
      td_odds := acc.best_td, reception_odds := acc.best_reception,
      rush_odds := acc.best_rush,
      score := pp.1,
      insights := pp.2,
      has_betting_data := !odds_data.odds.isEmpty }

/-- `InjuryStatus` of `src/data/models.py` (an enum with lowercase string
values). -/
inductive InjuryStatus where
  | healthy : InjuryStatus
  | questionable : InjuryStatus
  | doubtful : InjuryStatus
  | out : InjuryStatus
  | ir : InjuryStatus
  deriving DecidableEq, Repr

/-- The `.value` string of each `InjuryStatus` member. -/
def statusValue : InjuryStatus → String
  | InjuryStatus.healthy => "healthy"
  | InjuryStatus.questionable => "questionable"
  | InjuryStatus.doubtful => "doubtful"
  | InjuryStatus.out => "out"
  | InjuryStatus.ir => "ir"

/-- `InjuryInfo` of `src/data/models.py`, restricted to the fields the
engine reads. -/
structure InjuryInfo where
  status : InjuryStatus
  probability_of_playing : Option Rat
  deriving DecidableEq, Repr

/-- Renders a rational as Python would format `prob*100` with `:.0f`
(a whole number of percent; the half-way rounding mode of the float
formatting is not observable in any claim). -/
def fmt0 (q : Rat) : String := toString (round (q * 100))

/-- The position-based base scores of the no-data fallback in
`waiver_optimizer` (`base_scores.get(position, 0)`). -/
def base_scores (position : String) : Int :=
  if position = "QB" then 3
  else if position = "RB" then 2
  else if position = "WR" then 2
  else if position = "TE" then 1
  else if position = "K" then 0
  else if position = "DEF" then 0
  else 0

/-- The no-data fallback of `waiver_optimizer`: when no betting signal was
found (`score == 0` and not `has_betting_data`), assign the position base
score and record the insight. -/
def applyNoDataFallback (a : Analysis) : Analysis :=
  if a.score = 0 ∧ a.has_betting_data = false then
    { a with score := base_scores a.position,
             insights := a.insights ++ ["⚠️  No betting data - using base score"] }
  else a

/-- The injury overlay of `waiver_optimizer` (applied after the fallback):
OUT and IR force the score to −100; DOUBTFUL and QUESTIONABLE apply the
probability-tiered penalties of the source. -/
def applyInjuryOverlay (a : Analysis) (injury : Option InjuryInfo) : Analysis :=
  match injury with
  | none => a
  | some info =>
    match info.status with
    | InjuryStatus.out =>
      { a with score := -100, insights := a.insights ++ ["❌ OUT - excluded"] }
    | InjuryStatus.ir =>
      { a with score := -100, insights := a.insights ++ ["❌ IR - excluded"] }
    | InjuryStatus.doubtful =>
      match info.probability_of_playing with
      | some prob =>
        if prob < 0.5 then
          { a with score := -100,
                   insights := a.insights ++
                     ["❌ DOUBTFUL (" ++ fmt0 prob ++ "% chance) - excluded"] }
        else
          { a with score := a.score - 5,
                   insights := a.insights ++ ["⚠️  DOUBTFUL - heavy penalty"] }
      | none =>
        { a with score := a.score - 5,
                 insights := a.insights ++ ["⚠️  DOUBTFUL - heavy penalty"] }
    | InjuryStatus.questionable =>
      match info.probability_of_playing with
      | some prob =>
        if prob < 0.5 then
          { a with score := -100,
                   insights := a.insights ++
                     ["❌ QUESTIONABLE (" ++ fmt0 prob ++ "% chance) - excluded"] }
        else if prob < 0.75 then
          { a with score := a.score - 5,
                   insights := a.insights ++
                     ["⚠️  QUESTIONABLE (" ++ fmt0 prob ++ "% chance) - heavy penalty"] }
        else
          { a with score := a.score - 2,
                   insights := a.insights ++
                     ["⚠️  QUESTIONABLE (" ++ fmt0 prob ++ "% chance) - moderate penalty"] }
      | none =>
        { a with score := a.score - 4,
                 insights := a.insights ++
                   ["⚠️  QUESTIONABLE (probability unknown) - heavy penalty"] }
    | _ => a

/-- One player of the analysis batch in `waiver_optimizer`: its identity,
team mapping, position string, the odds payload the Vegas client returned
for it (the empty record `emptyOdds` on fetch failure or no match), and its
injury record from the roster lookup. -/
structure BatchPlayer where
  name : String
  team : String
  position : String
  odds_data : OddsData
  injury_info : Option InjuryInfo
  deriving Repr

/-- The per-player pipeline of the analysis loop: market analysis, then the
no-data fallback, then the injury overlay. -/
def processPlayer (p : BatchPlayer) (week_start week_end : Int) : Analysis :=
  applyInjuryOverlay
    (applyNoDataFallback
      (analyze_player_betting_data p.name p.team p.odds_data p.position week_start week_end))
    p.injury_info

/-- One iteration of the analysis loop: skip a player whose name was
already analyzed, otherwise store the processed analysis. -/
def analysisStep (week_start week_end : Int) (acc : List (String × Analysis))
    (p : BatchPlayer) : List (String × Analysis) :=
  if (acc.lookup p.name).isSome then acc
  else acc ++ [(p.name, processPlayer p week_start week_end)]

/-- The analysis loop of `waiver_optimizer`: builds the `player_analysis`
dict over all players; a player is never dropped from the batch. -/
def buildPlayerAnalysis (players : List BatchPlayer) (week_start week_end : Int) :
    List (String × Analysis) :=
  players.foldl (analysisStep week_start week_end) []

/-- A roster or free-agent player as `find_waiver_opportunities` sees it:
a name and the `.value` string of its position. -/
structure RosterP where
  name : String
  position : String
  deriving DecidableEq, Repr

/-- One swap suggestion emitted by `find_waiver_opportunities`. -/
structure Suggestion where
  add_player : String
  add_score : Int
  drop_player : String
  drop_score : Int
  improvement : Int
  position : String
  deriving DecidableEq, Repr

/-- `player_analysis.get(name, {}).get('score', 0)`. -/
def scoreOf (pa : List (String × Analysis)) (n : String) : Int :=
  ((pa.lookup n).map Analysis.score).getD 0

/-- The distinct roster positions in first-occurrence order — the iteration
order of the `roster_by_position` dict. -/
def positionsInOrder (roster : List RosterP) : List String :=
  (roster.map RosterP.position).eraseDups

/-- `find_waiver_opportunities` of `waiver_optimizer.py`: per position, the
roster sorted ascending by score and the available players descending; for
each of the top-3 available players, the first (worst) roster player it
beats by strictly more than 5 points yields one suggestion (the inner
`break`); finally all suggestions are sorted by improvement descending. -/
def find_waiver_opportunities (current_roster available_players : List RosterP)
    (pa : List (String × Analysis)) : List Suggestion :=
  let suggestions := (positionsInOrder current_roster).flatMap (fun position =>
    let roster_players := current_roster.filter (fun p => decide (p.position = position))
    let available_at := available_players.filter (fun p => decide (p.position = position))
    if available_at.isEmpty then []
    else
      let roster_sorted := roster_players.mergeSort
        (fun a b => decide (scoreOf pa a.name ≤ scoreOf pa b.name))
      let avail_sorted := available_at.mergeSort
        (fun a b => decide (scoreOf pa b.name ≤ scoreOf pa a.name))
      (avail_sorted.take 3).flatMap (fun ap =>
        let available_score := scoreOf pa ap.name
        match roster_sorted.find? (fun rp => decide (scoreOf pa rp.name + 5 < available_score)) with
        | some rp =>
          [{ add_player := ap.name, add_score := available_score,
             drop_player := rp.name, drop_score := scoreOf pa rp.name,
             improvement := available_score - scoreOf pa rp.name,
             position := position }]
        | none => []))
  suggestions.mergeSort (fun a b => decide (b.improvement ≤ a.improvement))

/-- The Python sort key of the lineup-assembler bucket sort:
`(score, has_betting_data, name in roster_names, name)`, compared with
`reverse=True` (so every component, the name included, orders
descending). -/
def sortKey (roster_names : List String) (e : String × Analysis) :
    Int × Bool × Bool × String :=
  (e.2.score, e.2.has_betting_data, decide (e.1 ∈ roster_names), e.1)

/-- Lexicographic (ascending) comparison of Python sort keys, with
`False < True` for the flags and code-point order for names, as in
Python tuple comparison. -/
def keyLE (a b : Int × Bool × Bool × String) : Bool :=
  decide (a.1 < b.1) || (decide (a.1 = b.1) && (
    decide (a.2.1 < b.2.1) || (decide (a.2.1 = b.2.1) && (
      decide (a.2.2.1 < b.2.2.1) || (decide (a.2.2.1 = b.2.2.1) &&
        decide (a.2.2.2 ≤ b.2.2.2))))))

/-- The bucket comparator: `x` may precede `y` exactly when the key of `x`
is lexicographically at least the key of `y` (`reverse=True`). -/
def bucketLE (roster_names : List String) (x y : String × Analysis) : Bool :=
  keyLE (sortKey roster_names y) (sortKey roster_names x)

/-- The eligible members of one position bucket: entries of the analysis
dict at that position, except that a player found in the roster lookup with
a negative score is skipped. -/
def eligibleBucket (pa : List (String × Analysis)) (roster : List String)
    (pos : String) : List (String × Analysis) :=
  pa.filter (fun e =>
    decide (e.2.position = pos) && !(decide (e.1 ∈ roster) && decide (e.2.score < 0)))

/-- `positions[pos].sort(key=..., reverse=True)` — a stable sort under the
descending key order (keys are injective on distinct names, so stability is
immaterial here). -/
def sortBucket (roster : List String) (l : List (String × Analysis)) :
    List (String × Analysis) :=
  l.mergeSort (bucketLE roster)

/-- The fully built (filtered and sorted) bucket of one position. -/
def buckets (pa : List (String × Analysis)) (roster : List String)
    (pos : String) : List (String × Analysis) :=
  sortBucket roster (eligibleBucket pa roster pos)

/-- `sort(key=lambda x: x[1]['score'], reverse=True)` — the stable
descending-score sort used for the FLEX pool and the bench. -/
def scoreDescLE (x y : String × Analysis) : Bool :=
  decide (y.2.score ≤ x.2.score)

/-- The FLEX candidate pool (RB bucket beyond index 2, WR bucket beyond
index 2, TE bucket beyond index 1, in source order) sorted by score
descending. -/
def flexSorted (pa : List (String × Analysis)) (roster : List String) :
    List (String × Analysis) :=
  ((buckets pa roster "RB").drop 2 ++ (buckets pa roster "WR").drop 2 ++
    (buckets pa roster "TE").drop 1).mergeSort scoreDescLE

/-- The result dict of `generate_complete_lineup`: the nine named starting
slots and the bench list. -/
structure LineupOut where
  qbSlot : Option (String × Analysis)
  rb1Slot : Option (String × Analysis)
  rb2Slot : Option (String × Analysis)
  wr1Slot : Option (String × Analysis)
  wr2Slot : Option (String × Analysis)
  flexSlot : Option (String × Analysis)
  teSlot : Option (String × Analysis)
  kSlot : Option (String × Analysis)
  defSlot : Option (String × Analysis)
  bench : List (String × Analysis)
  deriving Repr

/-- The filled named slots of a lineup, in the order the source iterates
them when collecting `all_used`. -/
def slotsList (L : LineupOut) : List (String × Analysis) :=
  [L.qbSlot, L.rb1Slot, L.rb2Slot, L.wr1Slot, L.wr2Slot, L.flexSlot,
   L.teSlot, L.kSlot, L.defSlot].filterMap id

/-- `generate_complete_lineup` of `waiver_optimizer.py`: bucket the analysis
dict by position (skipping negative-score roster players), sort each bucket
under the descending Python key, fill QB/RB1/RB2/WR1/WR2/TE/K/DEF from the
bucket heads, fill FLEX with the best leftover RB/WR/TE, and bench every
analyzed player not used in a named slot, sorted by score descending. -/
def generate_complete_lineup (pa : List (String × Analysis))
    (roster : List String) : LineupOut :=
  let qb := buckets pa roster "QB"
  let rb := buckets pa roster "RB"
  let wr := buckets pa roster "WR"
  let te := buckets pa roster "TE"
  let k := buckets pa roster "K"
  let df := buckets pa roster "DEF"
  let flex_sorted := flexSorted pa roster
  let qbS := qb[0]?
  let rb1 := rb[0]?
  let rb2 := rb[1]?
  let wr1 := wr[0]?
  let wr2 := wr[1]?
  let teS := te[0]?
  let kS := k[0]?
  let dS := df[0]?
  let flexS := flex_sorted[0]?
  let used := ([qbS, rb1, rb2, wr1, wr2, flexS, teS, kS, dS].filterMap id).map Prod.fst
  let bench := (pa.filter (fun e => !(decide (e.1 ∈ used)))).mergeSort scoreDescLE
  { qbSlot := qbS, rb1Slot := rb1, rb2Slot := rb2, wr1Slot := wr1,
    wr2Slot := wr2, flexSlot := flexS, teSlot := teS, kSlot := kS,
    defSlot := dS, bench := bench }

/-- Python `str.split()` on space-separated names: split and drop empty
tokens. -/
def pySplit (s : String) : List String :=
  (s.splitOn " ").filter (fun t => !(decide (t = "")))

/-- The honorific suffixes removed by the name matcher. -/
def nameSuffixes : List String := ["sr.", "jr.", "iii", "ii", "iv"]

/-- `_player_matches` of `src/api/external_data_clean.py`.  Note: the
suffixes are removed only from `our_player`; the second guarded branch of
the source repeats the first guard verbatim and is therefore unreachable,
and is kept here as dead code for fidelity. -/
def player_matches (api_player our_player : String) : Bool :=
  if api_player = "" ∨ our_player = "" then false
  else
    let api_parts := pySplit api_player.toLower
    let our_parts := pySplit our_player.toLower
    let our_parts_clean := our_parts.filter (fun part => !(decide (part ∈ nameSuffixes)))
    if 2 ≤ api_parts.length ∧ 2 ≤ our_parts_clean.length then
      api_parts.getLast? == our_parts_clean.getLast?
    else if 2 ≤ api_parts.length ∧ 2 ≤ our_parts_clean.length then
      (api_parts.head? == our_parts_clean.head?) &&
        (api_parts.getLast? == our_parts_clean.getLast?)
    else false

/-- Modelled from the claim wording of C4 (refinement reference only): strip
the honorific suffixes from BOTH the API-side and the caller-side name,
lower-case, and compare last names as the primary rule when both cleaned
names have at least two tokens. -/
def player_matches_claim (api_player our_player : String) : Bool :=
  let clean := fun (s : String) =>
    (pySplit s.toLower).filter (fun part => !(decide (part ∈ nameSuffixes)))
  let a := clean api_player
  let o := clean our_player
  if 2 ≤ a.length ∧ 2 ≤ o.length then a.getLast? == o.getLast?
  else false

/-- `Position` of `src/data/models.py`. -/
inductive Position where
  | QB : Position
  | RB : Position
  | WR : Position
  | TE : Position
  | K : Position
  | DEF : Position
  | FLEX : Position
  | SUPER_FLEX : Position
  | BN : Position
  deriving DecidableEq, Repr

/-- `PlayerStats` of `models.py`, restricted to the fields the evaluator
reads (`week` and `fantasy_points`).  Note the dataclass has no `points`
attribute — accessing one raises, which matters below. -/
structure PlayerStats where
  week : Int
  fantasy_points : Rat
  deriving DecidableEq, Repr

/-- `PlayerProjection` of `models.py`, with the timestamp on the integer
timeline. -/
structure PlayerProjection where
  week : Int
  projected_points : Rat
  confidence : Rat
  timestamp : Int
  deriving DecidableEq, Repr

/-- `WeatherInfo` of `models.py` (fields the evaluator reads). -/
structure WeatherInfo where
  temperature : Option Rat
  wind_speed : Option Rat
  precipitation_chance : Option Rat
  is_dome : Bool
  deriving DecidableEq, Repr

/-- `MatchupInfo` of `models.py`; the opponent `Team` is reduced to its
name, the only field the evaluator reads. -/
structure MatchupInfo where
  opponent_team : String
  opponent_defense_ranking : Option Int
  game_total : Option Rat
  spread : Option Rat
  weather : Option WeatherInfo
  is_home : Bool
  deriving DecidableEq, Repr

/-- `Player` of `models.py`, restricted to the fields the evaluator path
reads. -/
structure Player where
  name : String
  position : Position
  injury_info : Option InjuryInfo
  stats : List PlayerStats
  projections : List PlayerProjection
  matchup : Option MatchupInfo
  deriving DecidableEq, Repr

/-- The decision weights of the configuration (all default to 0.0 in
`settings.py`; the betting-odds path is primary). -/
structure Config where
  injury_weight : Rat
  matchup_weight : Rat
  recent_performance_weight : Rat
  weather_weight : Rat
  deriving DecidableEq, Repr

/-- `Player.get_recent_stats`: stats sorted by week descending (stable),
truncated. -/
def get_recent_stats (p : Player) (weeks : Nat) : List PlayerStats :=
  (p.stats.mergeSort (fun a b => decide (b.week ≤ a.week))).take weeks

/-- `Player.get_average_points`: mean fantasy points over the recent
weeks, `0.0` when there are none. -/
def get_average_points (p : Player) (weeks : Nat) : Rat :=
  let recent := get_recent_stats p weeks
  if recent.isEmpty then 0
  else (recent.map PlayerStats.fantasy_points).sum / (recent.length : Rat)

/-- `Player.get_trend`: `(points[0] - points[-1]) / len(points)` over the
recent weeks, `0.0` with fewer than two samples. -/
def get_trend (p : Player) (weeks : Nat) : Rat :=
  let recent := get_recent_stats p weeks
  if recent.length < 2 then 0
  else
    let points := recent.map PlayerStats.fantasy_points
    (points.headD 0 - points.getLastD 0) / (points.length : Rat)

/-- `Player.get_latest_projection`: `max(projections, key=timestamp)`,
which keeps the first of several maximal timestamps. -/
def get_latest_projection (p : Player) : Option PlayerProjection :=
  match p.projections with
  | [] => none
  | h :: t =>
    some (t.foldl (fun acc x => if acc.timestamp < x.timestamp then x else acc) h)

/-- `_get_position_average` (`averages.get(position, 5.0)`). -/
def get_position_average : Position → Rat
  | Position.QB => 18
  | Position.RB => 12
  | Position.WR => 10
  | Position.TE => 8
  | Position.K => 8
  | Position.DEF => 7
  | _ => 5

/-- `_evaluate_matchup`: defensive-ranking, game-total and spread
adjustments, clamped to `[-2, 2]`.  Each optional field is guarded by a
Python truthiness test, so a value of exactly 0 is skipped. -/
def evaluate_matchup (p : Player) (opponent : Option String) : Rat :=
  match p.matchup with
  | none => 0
  | some m =>
    match opponent with
    | none => 0
    | some o =>
      if o = "" then 0
      else
        let adj : Rat := 0
        let adj := adj + (match m.opponent_defense_ranking with
          | none => 0
          | some r =>
            if r = 0 then 0
            else if r ≤ 10 then -2
            else if r ≤ 20 then -0.5
            else if 25 ≤ r then 1
            else 0)
        let adj := adj + (match m.game_total with
          | none => 0
          | some t =>
            if t = 0 then 0
            else if 50 ≤ t then 1
            else if 45 ≤ t then 0.3
            else if t ≤ 40 then -0.5
            else 0)
        let adj := adj + (match m.spread with
          | none => 0
          | some s =>
            if s = 0 then 0
            else if m.is_home then
              (if 3 < s then 0.3 else if s < -3 then -0.5 else 0)
            else
              (if s < -3 then 0.3 else if 3 < s then -0.5 else 0))
        max (-2) (min 2 adj)

/-- `_evaluate_injury_risk`: status-tiered adjustment; note the
probability is read through a truthiness test, so a probability of exactly
0 falls into the "no probability" branch. -/
def evaluate_injury_risk (injury : Option InjuryInfo) : Rat :=
  match injury with
  | none => 0
  | some info =>
    match info.status with
    | InjuryStatus.out => -50
    | InjuryStatus.doubtful => -10
    | InjuryStatus.questionable =>
      (match info.probability_of_playing with
       | some prob =>
         if prob = 0 then -3
         else if prob < 0.5 then -5
         else if prob < 0.75 then -2
         else -0.5
       | none => -3)
    | InjuryStatus.ir => -50
    | InjuryStatus.healthy => 0

/-- `_evaluate_weather_impact`: zero for domes; wind, precipitation and
temperature penalties by position, each field behind a truthiness test. -/
def evaluate_weather_impact (p : Player) : Rat :=
  match p.matchup with
  | none => 0
  | some m =>
    match m.weather with
    | none => 0
    | some w =>
      if w.is_dome then 0
      else
        let adj : Rat := 0
        let adj := adj + (match w.wind_speed with
          | none => 0
          | some wind =>
            if wind = 0 then 0
            else if p.position = Position.QB ∨ p.position = Position.K then
              (if 20 < wind then -3
               else if 15 < wind then -1.5
               else if 10 < wind then -0.5
               else 0)
            else 0)
        let adj := adj + (match w.precipitation_chance with
          | none => 0
          | some pr =>
            if pr = 0 then 0
            else if 0.7 < pr then
              (if p.position = Position.QB ∨ p.position = Position.WR ∨
                  p.position = Position.TE then -1
               else if p.position = Position.K then -2
               else 0)
            else 0)
        let adj := adj + (match w.temperature with
          | none => 0
          | some t =>
            if t = 0 then 0
            else if t < 20 ∧ (p.position = Position.QB ∨ p.position = Position.WR ∨
                p.position = Position.TE) then -1
            else 0)
        adj

/-- `_evaluate_trend`: the 4-week trend bucketed into tiers. -/
def evaluate_trend (p : Player) : Rat :=
  let trend := get_trend p 4
  if 2 < trend then 2
  else if 1 < trend then 1
  else if 0.5 < trend then 0.5
  else if trend < -2 then -2
  else if trend < -1 then -1
  else if trend < -0.5 then -0.5
  else 0

/-- `_get_intelligent_fallback_score`.  The source tests
`player.stats and player.stats.points > 0`, but `player.stats` is a list
and `PlayerStats` has no `points` attribute, so the condition raises
`AttributeError` whenever the stats list is non-empty; this is the concrete
exception the evaluator catches.  The later status comparisons test the
lowercase `.value` strings against uppercase literals and can never fire;
they are kept as in the source. -/
def get_intelligent_fallback_score (p : Player) : Except String Rat := do
  let base := get_position_average p.position
  if !p.stats.isEmpty then
    throw "AttributeError: list object has no attribute points"
  let base := match p.injury_info with
    | none => base
    | some info =>
      if statusValue info.status ∈ ["OUT", "IR"] then 0
      else if statusValue info.status = "DOUBTFUL" then base * 0.3
      else if statusValue info.status = "QUESTIONABLE" then base * 0.7
      else base
  let base := match p.position with
    | Position.QB => max 8 (min 25 base)
    | Position.RB => max 3 (min 20 base)
    | Position.WR => max 2 (min 18 base)
    | Position.TE => max 1 (min 15 base)
    | Position.K => max 5 (min 12 base)
    | Position.DEF => max 2 (min 20 base)
    | _ => base
  return max 0 base

/-- The part of `_get_base_projection` after the exact-week projection
check: recent 4-week average (blended toward the position average when it
falls below half of it), else the intelligent fallback. -/
def baseProjectionFallback (p : Player) : Except String Rat :=
  let recent_average := get_average_points p 4
  if 0 < recent_average then
    let position_avg := get_position_average p.position
    if recent_average < position_avg * 0.5 then
      Except.ok (max recent_average (position_avg * 0.6))
    else Except.ok recent_average
  else get_intelligent_fallback_score p

/-- `_get_base_projection`: prefer an exact-week projection, else fall
back. -/
def get_base_projection (p : Player) (week : Int) : Except String Rat :=
  match get_latest_projection p with
  | some proj =>
    if proj.week = week then Except.ok proj.projected_points
    else baseProjectionFallback p
  | none => baseProjectionFallback p

/-- `_calculate_total_score`: base plus weighted adjustments when any
weight is truthy (non-zero), floored at 0. -/
def calculate_total_score (cfg : Config) (base matchup injury weather trend : Rat) : Rat :=
  let total := base
  let total :=
    if cfg.matchup_weight ≠ 0 ∨ cfg.injury_weight ≠ 0 ∨ cfg.weather_weight ≠ 0 ∨
        cfg.recent_performance_weight ≠ 0 then
      total + matchup * cfg.matchup_weight * 10 + injury * cfg.injury_weight
        + weather * cfg.weather_weight * 10 + trend * cfg.recent_performance_weight * 10
    else total
  max 0 total

/-- `_calculate_confidence`: 0.5 base plus data-availability bonuses,
capped at 1. -/
def calculate_confidence (p : Player) (week : Int) : Rat :=
  let confidence : Rat := 0.5
  let confidence := confidence + (
    let n := (get_recent_stats p 4).length
    if 3 ≤ n then 0.2 else if 1 ≤ n then 0.1 else 0)
  let confidence := confidence + (match get_latest_projection p with
    | some _ => 0.2
    | none => 0)
  let confidence := confidence + (match p.injury_info with
    | some info =>
      if info.status = InjuryStatus.healthy ∨ info.status = InjuryStatus.out then 0.1
      else 0
    | none => 0)
  let confidence := confidence + (match p.matchup with
    | some m => (match m.weather with | some _ => (0.1 : Rat) | none => 0)
    | none => 0)
  min 1 confidence

/-- Renders a rational as Python would format it with one decimal place
(`{:.1f}`); the half-way rounding mode of float formatting is not
observable in any claim. -/
def fmt1 (q : Rat) : String :=
  let n : Int := round (q * 10)
  let sign := if n < 0 then "-" else ""
  let m := n.natAbs
  sign ++ toString (m / 10) ++ "." ++ toString (m % 10)

/-- `_generate_reasoning`: the human-readable component breakdown. -/
def generate_reasoning (p : Player) (base matchup injury weather trend : Rat) : String :=
  let reasons := ["Base projection: " ++ fmt1 base ++ " points"]
  let reasons := reasons ++ (if matchup ≠ 0 then
      (if 0 < matchup then ["Favorable matchup (+" ++ fmt1 matchup ++ ")"]
       else ["Tough matchup (" ++ fmt1 matchup ++ ")"])
    else [])
  let reasons := reasons ++ (if injury ≠ 0 then
      (match p.injury_info with
       | some info =>
         ["Injury concern: " ++ statusValue info.status ++ " (" ++ fmt1 injury ++ ")"]
       | none => [])
    else [])
  let reasons := reasons ++ (if weather ≠ 0 then
      (if 0 < weather then ["Favorable weather (+" ++ fmt1 weather ++ ")"]
       else ["Weather concern (" ++ fmt1 weather ++ ")"])
    else [])
  let reasons := reasons ++ (if trend ≠ 0 then
      (if 0 < trend then ["Positive trend (+" ++ fmt1 trend ++ ")"]
       else ["Declining trend (" ++ fmt1 trend ++ ")"])
    else [])
  String.intercalate "; " reasons

/-- `PlayerScore` of `player_evaluator.py`; the player reference is reduced
to the player name. -/
structure PlayerScore where
  player : String
  total_score : Rat
  base_projection : Rat
  matchup_adjustment : Rat
  injury_adjustment : Rat
  weather_adjustment : Rat
  trend_adjustment : Rat
  confidence : Rat
  reasoning : String
  deriving DecidableEq, Repr

/-- The `try` body of `evaluate_player`: every step of the source in order;
a raised exception surfaces as `Except.error`. -/
def evalBody (cfg : Config) (p : Player) (week : Int) (opponent : Option String) :
    Except String PlayerScore := do
  let base ← get_base_projection p week
  let opponent :=
    if opponent = none ∨ opponent = some "" then
      (match p.matchup with
       | some m => some m.opponent_team
       | none => opponent)
    else opponent
  let matchup := evaluate_matchup p opponent
  let injury := evaluate_injury_risk p.injury_info
  let weather := evaluate_weather_impact p
  let trend := evaluate_trend p
  let total := calculate_total_score cfg base matchup injury weather trend
  let conf := calculate_confidence p week
  let reasoning := generate_reasoning p base matchup injury weather trend
  return { player := p.name, total_score := total, base_projection := base,
           matchup_adjustment := matchup, injury_adjustment := injury,
           weather_adjustment := weather, trend_adjustment := trend,
           confidence := conf, reasoning := reasoning }

/-- `evaluate_player` of `player_evaluator.py`: the body under
`try/except`; any exception yields the default zero score with the error
text in the reasoning, and is never propagated (the function is total). -/
def evaluate_player (cfg : Config) (p : Player) (week : Int) (opponent : Option String) :
    PlayerScore :=
  match evalBody cfg p week opponent with
  | Except.ok s => s
  | Except.error e =>
    { player := p.name, total_score := 0, base_projection := 0,
      matchup_adjustment := 0, injury_adjustment := 0, weather_adjustment := 0,
      trend_adjustment := 0, confidence := 0,
      reasoning := "Error in evaluation: " ++ e }

/-- The batch evaluation of `rank_players_by_position` and
`get_top_players`: one `evaluate_player` per player. -/
def evaluatePlayers (cfg : Config) (players : List Player) (week : Int) : List PlayerScore :=
  players.map (fun p => evaluate_player cfg p week none)

/-! ## Helper lemmas -/

theorem lookup_isSome_iff {β : Type} (l : List (String × β)) (n : String) :
    (l.lookup n).isSome = true ↔ n ∈ l.map Prod.fst := by
  induction l with
  | nil => simp [List.lookup]
  | cons h t ih =>
    simp only [List.lookup, List.map_cons, List.mem_cons]
    cases hb : n == h.1 with
    | true => simp [beq_iff_eq.mp hb]
    | false =>
      have : ¬ n = h.1 := by simpa using hb
      simp [ih, this]

theorem analysisStep_keys_mono (ws we : Int) (acc : List (String × Analysis))
    (p : BatchPlayer) {n : String} (h : n ∈ acc.map Prod.fst) :
    n ∈ (analysisStep ws we acc p).map Prod.fst := by
  unfold analysisStep
  split <;> simp_all

theorem analysisStep_adds (ws we : Int) (acc : List (String × Analysis)) (p : BatchPlayer) :
    p.name ∈ (analysisStep ws we acc p).map Prod.fst := by
  unfold analysisStep
  split
  · exact (lookup_isSome_iff acc p.name).mp (by assumption)
  · simp

theorem foldl_analysisStep_mem (ws we : Int) :
    ∀ (players : List BatchPlayer) (acc : List (String × Analysis)) (n : String),
      (n ∈ acc.map Prod.fst ∨ ∃ p ∈ players, p.name = n) →
      n ∈ ((players.foldl (analysisStep ws we) acc).map Prod.fst) := by
  intro players
  induction players with
  | nil =>
    intro acc n h
    rcases h with h | ⟨p, hp, _⟩
    · simpa using h
    · cases hp
  | cons head rest ih =>
    intro acc n h
    rcases h with h | ⟨p, hp, hpn⟩
    · exact ih _ n (Or.inl (analysisStep_keys_mono ws we acc head h))
    · rcases List.mem_cons.mp hp with rfl | hp
      · exact ih _ n (Or.inl (hpn ▸ analysisStep_adds ws we acc p))
      · exact ih _ n (Or.inr ⟨p, hp, hpn⟩)

theorem gameTotalPoints_bounds (t : Option Rat) :
    -2 ≤ (gameTotalPoints t).1 ∧ (gameTotalPoints t).1 ≤ 3 := by
  rcases t with _ | t
  · simp [gameTotalPoints]
  · simp only [gameTotalPoints]
    split_ifs <;> norm_num

theorem spreadPoints_bounds (team : String) (gl : GameLines) :
    -1 ≤ (spreadPoints team gl).1 ∧ (spreadPoints team gl).1 ≤ 2 := by
  unfold spreadPoints
  rcases gl.spread with _ | s
  · simp
  · dsimp only
    split_ifs <;> norm_num

theorem tdPoints_bounds (b : Option Int) :
    0 ≤ (tdPoints b).1 ∧ (tdPoints b).1 ≤ 3 := by
  rcases b with _ | b
  · simp [tdPoints]
  · simp only [tdPoints]
    split_ifs <;> norm_num

theorem receptionPoints_bounds (b : Option Rat) :
    0 ≤ (receptionPoints b).1 ∧ (receptionPoints b).1 ≤ 2 := by
  rcases b with _ | b
  · simp [receptionPoints]
  · simp only [receptionPoints]
    split_ifs <;> norm_num

theorem rushPointsNonQB_bounds (pos : String) (b : Option Rat) :
    0 ≤ (rushPointsNonQB pos b).1 ∧ (rushPointsNonQB pos b).1 ≤ 2 := by
  rcases b with _ | b
  · simp [rushPointsNonQB]
  · simp only [rushPointsNonQB]
    split_ifs <;> norm_num

theorem qbPassTdsPoints_bounds (b : Option Int) :
    0 ≤ (qbPassTdsPoints b).1 ∧ (qbPassTdsPoints b).1 ≤ 3 := by
  rcases b with _ | b
  · simp [qbPassTdsPoints]
  · simp only [qbPassTdsPoints]
    split_ifs <;> norm_num

theorem qbPassYdsPoints_bounds (b : Option Rat) :
    0 ≤ (qbPassYdsPoints b).1 ∧ (qbPassYdsPoints b).1 ≤ 3 := by
  rcases b with _ | b
  · simp [qbPassYdsPoints]
  · simp only [qbPassYdsPoints]
    split_ifs <;> norm_num

theorem qbCompletionsPoints_bounds (b : Option Rat) :
    0 ≤ (qbCompletionsPoints b).1 ∧ (qbCompletionsPoints b).1 ≤ 2 := by
  rcases b with _ | b
  · simp [qbCompletionsPoints]
  · simp only [qbCompletionsPoints]
    split_ifs <;> norm_num

theorem qbAttemptsPoints_bounds (b : Option Rat) :
    0 ≤ (qbAttemptsPoints b).1 ∧ (qbAttemptsPoints b).1 ≤ 2 := by
  rcases b with _ | b
  · simp [qbAttemptsPoints]
  · simp only [qbAttemptsPoints]
    split_ifs <;> norm_num

theorem qbRushPoints_bounds (b : Option Rat) :
    0 ≤ (qbRushPoints b).1 ∧ (qbRushPoints b).1 ≤ 2 := by
  rcases b with _ | b
  · simp [qbRushPoints]
  · simp only [qbRushPoints]
    split_ifs <;> norm_num

theorem propPoints_bounds (pos : String) (acc : PropAcc) :
    0 ≤ (propPoints pos acc).1 ∧ (propPoints pos acc).1 ≤ 12 ∧
      (pos ≠ "QB" → (propPoints pos acc).1 ≤ 7) := by
  unfold propPoints
  split_ifs with h
  · unfold qbPoints
    have h1 := qbPassTdsPoints_bounds acc.qb_pass_tds
    have h2 := qbPassYdsPoints_bounds acc.qb_pass_yds
    have h3 := qbCompletionsPoints_bounds acc.qb_completions
    have h4 := qbAttemptsPoints_bounds acc.qb_attempts
    have h5 := qbRushPoints_bounds acc.qb_rush
    exact ⟨by dsimp only; omega, by dsimp only; omega, fun hn => absurd h hn⟩
  · unfold nonQBPoints
    have h1 := tdPoints_bounds acc.best_td
    have h2 := receptionPoints_bounds acc.best_reception
    have h3 := rushPointsNonQB_bounds pos acc.best_rush
    exact ⟨by dsimp only; omega, by dsimp only; omega, fun _ => by dsimp only; omega⟩

theorem analyze_score_eq (pn team : String) (od : OddsData) (pos : String) (ws we : Int) :
    (analyze_player_betting_data pn team od pos ws we).score =
      (match od.game_lines with
       | some gl =>
         if commenceOutsideWeek gl.commence ws we then 0
         else (gameTotalPoints gl.total).1 + (spreadPoints team gl).1 +
           (propPoints pos (od.odds.foldl (propStep pos) initAcc)).1
       | none => (propPoints pos (od.odds.foldl (propStep pos) initAcc)).1) := by
  rcases od with ⟨gls, odds⟩
  rcases gls with _ | gl
  · rfl
  · dsimp only [analyze_player_betting_data]
    split_ifs <;> rfl

/-- C9: for every input payload and position, the betting score returned by
`analyze_player_betting_data` (before the no-data fallback and injury
overlay) is an integer in the range [-3, 17], and within [-3, 12] for every
non-QB position: the game lines contribute between -3 and +5 and the props
at most +12 for a QB and at most +7 otherwise. -/
theorem betting_score_range (pn team : String) (od : OddsData) (pos : String) (ws we : Int) :
    -3 ≤ (analyze_player_betting_data pn team od pos ws we).score ∧
    (analyze_player_betting_data pn team od pos ws we).score ≤ 17 ∧
    (pos ≠ "QB" → (analyze_player_betting_data pn team od pos ws we).score ≤ 12) := by
  have h := analyze_score_eq pn team od pos ws we
  obtain ⟨hp0, hp12, hp7⟩ := propPoints_bounds pos (od.odds.foldl (propStep pos) initAcc)
  rcases od with ⟨gls, odds⟩
  rcases gls with _ | gl
  · dsimp only at h hp0 hp12 hp7
    exact ⟨by omega, by omega, fun hq => by have := hp7 hq; omega⟩
  · dsimp only at h hp0 hp12 hp7
    obtain ⟨hg1, hg2⟩ := gameTotalPoints_bounds gl.total
    obtain ⟨hs1, hs2⟩ := spreadPoints_bounds team gl
    by_cases hf : commenceOutsideWeek gl.commence ws we = true
    · rw [if_pos hf] at h
      exact ⟨by omega, by omega, fun _ => by omega⟩
    · rw [if_neg hf] at h
      exact ⟨by omega, by omega, fun hq => by have := hp7 hq; omega⟩

/-- Witness for C9 at a concrete non-QB input. -/
theorem betting_score_range_witness :
    -3 ≤ (analyze_player_betting_data ("X") ("T") emptyOdds ("RB") 0 0).score ∧
    (analyze_player_betting_data ("X") ("T") emptyOdds ("RB") 0 0).score ≤ 17 ∧
    (analyze_player_betting_data ("X") ("T") emptyOdds ("RB") 0 0).score ≤ 12 := by
  obtain ⟨h1, h2, h3⟩ := betting_score_range ("X") ("T") emptyOdds ("RB") 0 0
  exact ⟨h1, h2, h3 (by decide)⟩

/-- Game lines for the C5 scenario: total 52, home team favored by 6. -/
def demoHighGL : GameLines :=
  { commence := Commence.absent, total := some 52, spread := some 6,
    home_team := "Kansas City Chiefs" }

/-- Odds payload for the C5 scenario (no props). -/
def demoHighOdds : OddsData := { game_lines := some demoHighGL, odds := [] }

/-- Game lines with a total of exactly 0 (for the C5 counterexample). -/
def demoZeroGL : GameLines :=
  { commence := Commence.absent, total := some 0, spread := none, home_team := "" }

/-- Odds payload with a total of exactly 0. -/
def demoZeroOdds : OddsData := { game_lines := some demoZeroGL, odds := [] }

/-- C5 (amended): the game-line step contributes exactly +3 when the game
total is at least 50, +1 when it is at least 45 and below 50, and -2 when
it is at most 40 and nonzero (a total of exactly 0 is skipped as missing by
the Python truthiness test), plus +2 for a home team favored by more than 3
(spread > 3) or an away team favored by more than 3 (spread < -3), and -1
for a home underdog (spread < -3) or away underdog (spread > 3); hence a
home-team player with total 52 and spread +6 receives exactly +5 before
props and injury. -/
theorem game_line_scoring (t s : Rat) (team : String) (gl : GameLines) :
    (50 ≤ t → (gameTotalPoints (some t)).1 = 3) ∧
    (45 ≤ t → t < 50 → (gameTotalPoints (some t)).1 = 1) ∧
    (t ≤ 40 → t ≠ 0 → (gameTotalPoints (some t)).1 = -2) ∧
    (gl.spread = some s → team = gl.home_team → 3 < s → (spreadPoints team gl).1 = 2) ∧
    (gl.spread = some s → ¬ team = gl.home_team → s < -3 → (spreadPoints team gl).1 = 2) ∧
    (gl.spread = some s → team = gl.home_team → s < -3 → (spreadPoints team gl).1 = -1) ∧
    (gl.spread = some s → ¬ team = gl.home_team → 3 < s → (spreadPoints team gl).1 = -1) ∧
    (analyze_player_betting_data ("P") ("Kansas City Chiefs") demoHighOdds ("WR") 0 100).score = 5 := by
  refine ⟨?_, ?_, ?_, ?_, ?_, ?_, ?_, ?_⟩
  · intro h
    simp only [gameTotalPoints]
    split_ifs <;> first | rfl | (exfalso; linarith)
  · intro h1 h2
    simp only [gameTotalPoints]
    split_ifs <;> first | rfl | (exfalso; linarith)
  · intro h1 h2
    simp only [gameTotalPoints]
    split_ifs with hz <;>
      first | rfl | (exfalso; exact h2 hz) | (exfalso; linarith)
  · intro hsp hh hs
    unfold spreadPoints
    rw [hsp]
    dsimp only
    split_ifs with h0 h1 h2 h3 h4 <;>
      first | rfl | (exfalso; linarith) | (exfalso; exact h1 ⟨hh, hs⟩)
  · intro hsp hh hs
    unfold spreadPoints
    rw [hsp]
    dsimp only
    split_ifs <;> first | rfl | (exfalso; linarith) | tauto
  · intro hsp hh hs
    unfold spreadPoints
    rw [hsp]
    dsimp only
    split_ifs <;> first | rfl | (exfalso; linarith) | tauto
  · intro hsp hh hs
    unfold spreadPoints
    rw [hsp]
    dsimp only
    split_ifs <;> first | rfl | (exfalso; linarith) | tauto
  · decide

/-- Witness for C5: the scenario values 52 and +6 hit the +3 and +2 arms,
and a total of 38 hits the -2 arm. -/
theorem game_line_scoring_witness :
    (gameTotalPoints (some 52)).1 = 3 ∧
    (spreadPoints ("Kansas City Chiefs") demoHighGL).1 = 2 ∧
    (gameTotalPoints (some 38)).1 = -2 := by
  refine ⟨?_, ?_, ?_⟩
  · exact (game_line_scoring 52 6 ("Kansas City Chiefs") demoHighGL).1 (by norm_num)
  · exact (game_line_scoring 52 6 ("Kansas City Chiefs") demoHighGL).2.2.2.1 rfl rfl (by norm_num)
  · exact (game_line_scoring 38 6 ("Kansas City Chiefs") demoHighGL).2.2.1 (by norm_num) (by norm_num)

/-- C5 counterexample: a game total of exactly 0 is at most 40, yet the
game-total step contributes 0 rather than the -2 the claim requires,
because the source reads the total through a Python truthiness test. -/
theorem game_total_zero_counterexample :
    (0 : Rat) ≤ 40 ∧ (gameTotalPoints (some 0)).1 = 0 ∧
    (analyze_player_betting_data ("P") ("T") demoZeroOdds ("RB") 0 100).score = 0 := by
  refine ⟨by norm_num, by decide, by decide⟩

/-- A data-sparse player for the C7 witness. -/
def demoNoDataBP : BatchPlayer :=
  { name := "CeeDee Lamb", team := "Dallas Cowboys", position := "WR",
    odds_data := emptyOdds, injury_info := none }

/-- C7: a player whose market analysis ends with `has_betting_data` false
and score 0 (in particular one whose odds fetch failed and yielded the
empty record) is assigned the fixed position-based base score (QB 3, RB 2,
WR 2, TE 1, K 0, DEF 0) instead of 0, and every batch player keeps an entry
in the analysis dict (none is dropped). -/
theorem no_data_fallback_assigns_base :
    (∀ a : Analysis, a.score = 0 → a.has_betting_data = false →
      (applyNoDataFallback a).score = base_scores a.position) ∧
    (base_scores ("QB") = 3 ∧ base_scores ("RB") = 2 ∧ base_scores ("WR") = 2 ∧
      base_scores ("TE") = 1 ∧ base_scores ("K") = 0 ∧ base_scores ("DEF") = 0) ∧
    (∀ (pn team pos : String) (ws we : Int),
      (analyze_player_betting_data pn team emptyOdds pos ws we).score = 0 ∧
      (analyze_player_betting_data pn team emptyOdds pos ws we).has_betting_data = false) ∧
    (∀ (players : List BatchPlayer) (ws we : Int), ∀ p ∈ players,
      p.name ∈ (buildPlayerAnalysis players ws we).map Prod.fst) := by
  refine ⟨?_, ⟨rfl, rfl, rfl, rfl, rfl, rfl⟩, ?_, ?_⟩
  · intro a h1 h2
    unfold applyNoDataFallback
    rw [if_pos ⟨h1, h2⟩]
  · intro pn team pos ws we
    constructor
    · have h : (analyze_player_betting_data pn team emptyOdds pos ws we).score =
          (propPoints pos initAcc).1 := rfl
      rw [h]
      unfold propPoints
      split_ifs <;> rfl
    · rfl
  · intro players ws we p hp
    exact foldl_analysisStep_mem ws we players [] p.name (Or.inr ⟨p, hp, rfl⟩)

/-- Witness for C7: a WR with the empty odds record gets base score 2 and
stays in the batch. -/
theorem no_data_fallback_witness :
    (applyNoDataFallback
      (analyze_player_betting_data ("CeeDee Lamb") ("Dallas Cowboys") emptyOdds ("WR") 0 100)).score = 2 ∧
    ("CeeDee Lamb" : String) ∈ (buildPlayerAnalysis [demoNoDataBP] 0 100).map Prod.fst := by
  obtain ⟨h1, _, h3, h4⟩ := no_data_fallback_assigns_base
  obtain ⟨hs, hh⟩ := h3 ("CeeDee Lamb") ("Dallas Cowboys") ("WR") 0 100
  constructor
  · exact (h1 _ hs hh).trans (by decide)
  · exact h4 [demoNoDataBP] 0 100 demoNoDataBP (by simp)

/-- C4 (amended): the name matcher lower-cases both names but strips the
honorific suffixes only from the caller-side name; whenever the API-side
name and the cleaned caller-side name both have at least two tokens the
result is exactly last-token equality (the first-plus-last secondary check
of the source repeats the same guard and is unreachable), and the matcher
returns false whenever either input is empty or either token-count
condition fails. -/
theorem player_matches_characterization :
    (∀ api our : String,
      player_matches api our = true ↔
        (¬ api = "" ∧ ¬ our = "" ∧
         2 ≤ (pySplit api.toLower).length ∧
         2 ≤ ((pySplit our.toLower).filter
                (fun part => !(decide (part ∈ nameSuffixes)))).length ∧
         (pySplit api.toLower).getLast? =
           ((pySplit our.toLower).filter
             (fun part => !(decide (part ∈ nameSuffixes)))).getLast?)) ∧
    player_matches ("Aaron Jones") ("Aaron Jones Sr.") = true ∧
    player_matches ("Tyler Loop") ("Tyler Loop") = true := by
  refine ⟨?_, by decide, by decide⟩
  intro api our
  unfold player_matches
  split_ifs with h1
  · simp only [Bool.false_eq_true, false_iff]
    rintro ⟨ha, ho, -⟩
    rcases h1 with h | h
    · exact ha h
    · exact ho h
  · push_neg at h1
    dsimp only
    split_ifs with h2
    · simp only [beq_iff_eq, h1.1, h1.2, h2.1, h2.2, not_false_eq_true, true_and]
    · simp only [Bool.false_eq_true, false_iff]
      rintro ⟨-, -, hl1, hl2, -⟩
      exact h2 ⟨hl1, hl2⟩

/-- Witness for C4 (amended): the characterization applied at a concrete
matching pair. -/
theorem player_matches_characterization_witness :
    player_matches ("Justin Fields") ("Justin Fields") = true :=
  ((player_matches_characterization).1 ("Justin Fields") ("Justin Fields")).mpr
    (by decide)

/-- C4 counterexample: a suffix on the API side is not stripped, so the
source matcher rejects a pair the claimed both-sides-stripped procedure
accepts. -/
theorem player_matches_suffix_counterexample :
    player_matches ("Aaron Jones Jr.") ("Aaron Jones") = false ∧
    player_matches_claim ("Aaron Jones Jr.") ("Aaron Jones") = true :=
  ⟨by decide, by decide⟩

theorem filterMap_id_cons {α : Type} (o : Option α) (l : List (Option α)) :
    (o :: l).filterMap id = o.toList ++ l.filterMap id := by
  cases o <;> simp

theorem getElem?_zero_toList {α : Type} (l : List α) : l[0]?.toList = l.take 1 := by
  cases l <;> simp

theorem take_two_assoc {α : Type} (l r : List α) :
    l.take 1 ++ (l[1]?.toList ++ r) = l.take 2 ++ r := by
  match l with
  | [] => simp
  | [a] => simp
  | a :: b :: t => simp [List.take_succ_cons]

/-- The filled named slots of the generated lineup, as prefixes of the
sorted buckets: QB head, two RB heads, two WR heads, the FLEX head, then
the TE, K and DEF heads. -/
theorem slotsList_eq (pa : List (String × Analysis)) (roster : List String) :
    slotsList (generate_complete_lineup pa roster) =
      (buckets pa roster "QB").take 1 ++ ((buckets pa roster "RB").take 2 ++
      ((buckets pa roster "WR").take 2 ++ ((flexSorted pa roster).take 1 ++
      ((buckets pa roster "TE").take 1 ++ ((buckets pa roster "K").take 1 ++
      (buckets pa roster "DEF").take 1))))) := by
  show ([(buckets pa roster "QB")[0]?, (buckets pa roster "RB")[0]?,
        (buckets pa roster "RB")[1]?, (buckets pa roster "WR")[0]?,
        (buckets pa roster "WR")[1]?, (flexSorted pa roster)[0]?,
        (buckets pa roster "TE")[0]?, (buckets pa roster "K")[0]?,
        (buckets pa roster "DEF")[0]?] : List (Option (String × Analysis))).filterMap id = _
  simp only [filterMap_id_cons, List.filterMap_nil, List.append_nil, List.append_assoc,
    getElem?_zero_toList, take_two_assoc]

/-- Membership in a sorted position bucket: exactly the analysis entries at
that position that are not roster players with a negative score. -/
theorem mem_buckets_iff {pa : List (String × Analysis)} {roster : List String}
    {pos : String} {e : String × Analysis} :
    e ∈ buckets pa roster pos ↔
      e ∈ pa ∧ e.2.position = pos ∧ ¬(e.1 ∈ roster ∧ e.2.score < 0) := by
  unfold buckets sortBucket eligibleBucket
  rw [(List.mergeSort_perm _ _).mem_iff, List.mem_filter]
  simp only [Bool.and_eq_true, decide_eq_true_eq, Bool.not_eq_true']
  constructor
  · rintro ⟨h1, h2, h3⟩
    refine ⟨h1, h2, ?_⟩
    rintro ⟨hr, hs⟩
    rw [Bool.and_eq_false_iff] at h3
    rcases h3 with h | h
    · exact absurd hr (by simpa using h)
    · exact absurd hs (by simpa using h)
  · rintro ⟨h1, h2, h3⟩
    refine ⟨h1, h2, ?_⟩
    rw [Bool.and_eq_false_iff]
    by_cases hr : e.1 ∈ roster
    · right
      have : ¬ e.2.score < 0 := fun hs => h3 ⟨hr, hs⟩
      simpa using this
    · left
      simpa using hr

/-- Distinct keys in the analysis dict determine the analysis record. -/
theorem nodup_keys_inj {pa : List (String × Analysis)}
    (h : (pa.map Prod.fst).Nodup) {n : String} {a b : Analysis}
    (ha : (n, a) ∈ pa) (hb : (n, b) ∈ pa) : a = b := by
  induction pa with
  | nil => cases ha
  | cons x t ih =>
    obtain ⟨m, c⟩ := x
    rw [List.map_cons, List.nodup_cons] at h
    rcases List.mem_cons.mp ha with hac | ha'
    · injection hac with h1 h2
      subst h1
      subst h2
      rcases List.mem_cons.mp hb with hbc | hb'
      · injection hbc with h3 h4
        exact h4.symm
      · exact absurd (List.mem_map.mpr ⟨(n, b), hb', rfl⟩) h.1
    · rcases List.mem_cons.mp hb with hbc | hb'
      · injection hbc with h3 h4
        subst h3
        exact absurd (List.mem_map.mpr ⟨(n, a), ha', rfl⟩) h.1
      · exact ih h.2 ha' hb'

/-- The key list of a sorted bucket has no duplicates when the analysis
dict keys are distinct. -/
theorem nodup_fst_buckets {pa : List (String × Analysis)} (roster : List String)
    (pos : String) (h : (pa.map Prod.fst).Nodup) :
    ((buckets pa roster pos).map Prod.fst).Nodup := by
  unfold buckets sortBucket
  have hperm := (List.mergeSort_perm (eligibleBucket pa roster pos) (bucketLE roster)).map Prod.fst
  rw [hperm.nodup_iff]
  exact List.Nodup.sublist (List.Sublist.map _ (List.filter_sublist pa)) h

theorem take_mem_bucket {pa : List (String × Analysis)} {roster : List String}
    {pos : String} {i : Nat} {e : String × Analysis}
    (he : e ∈ (buckets pa roster pos).take i) :
    e ∈ pa ∧ e.2.position = pos ∧ ¬(e.1 ∈ roster ∧ e.2.score < 0) :=
  mem_buckets_iff.mp (List.mem_of_mem_take he)

theorem drop_mem_bucket {pa : List (String × Analysis)} {roster : List String}
    {pos : String} {i : Nat} {e : String × Analysis}
    (he : e ∈ (buckets pa roster pos).drop i) :
    e ∈ pa ∧ e.2.position = pos ∧ ¬(e.1 ∈ roster ∧ e.2.score < 0) :=
  mem_buckets_iff.mp (List.mem_of_mem_drop he)

theorem bucket_take_drop_disjoint {pa : List (String × Analysis)}
    {roster : List String} {pos : String} (i : Nat) (h : (pa.map Prod.fst).Nodup) :
    (((buckets pa roster pos).take i).map Prod.fst).Disjoint
      (((buckets pa roster pos).drop i).map Prod.fst) := by
  have hn := nodup_fst_buckets roster pos h
  conv at hn => rw [← List.take_append_drop i (buckets pa roster pos)]
  rw [List.map_append, List.nodup_append] at hn
  exact hn.2.2

theorem mem_flexSorted_cases {pa : List (String × Analysis)} {roster : List String}
    {e : String × Analysis} (he : e ∈ flexSorted pa roster) :
    e ∈ (buckets pa roster "RB").drop 2 ∨ e ∈ (buckets pa roster "WR").drop 2 ∨
      e ∈ (buckets pa roster "TE").drop 1 := by
  unfold flexSorted at he
  rw [(List.mergeSort_perm _ _).mem_iff] at he
  simpa using he

theorem flex_mem_pa {pa : List (String × Analysis)} {roster : List String}
    {e : String × Analysis} (he : e ∈ flexSorted pa roster) :
    e ∈ pa ∧ (e.2.position = "RB" ∨ e.2.position = "WR" ∨ e.2.position = "TE") ∧
      ¬(e.1 ∈ roster ∧ e.2.score < 0) := by
  rcases mem_flexSorted_cases he with h | h | h
  · obtain ⟨h1, h2, h3⟩ := drop_mem_bucket h
    exact ⟨h1, Or.inl h2, h3⟩
  · obtain ⟨h1, h2, h3⟩ := drop_mem_bucket h
    exact ⟨h1, Or.inr (Or.inl h2), h3⟩
  · obtain ⟨h1, h2, h3⟩ := drop_mem_bucket h
    exact ⟨h1, Or.inr (Or.inr h2), h3⟩

theorem disjoint_by_position {pa : List (String × Analysis)}
    (h : (pa.map Prod.fst).Nodup) {l₁ l₂ : List (String × Analysis)} {P Q : String}
    (h1 : ∀ e ∈ l₁, e ∈ pa ∧ e.2.position = P)
    (h2 : ∀ e ∈ l₂, e ∈ pa ∧ e.2.position = Q) (hPQ : P ≠ Q) :
    (l₁.map Prod.fst).Disjoint (l₂.map Prod.fst) := by
  intro n hn1 hn2
  obtain ⟨⟨n1, a⟩, he1, hf1⟩ := List.mem_map.mp hn1
  obtain ⟨⟨n2, b⟩, he2, hf2⟩ := List.mem_map.mp hn2
  dsimp only at hf1 hf2
  subst hf1
  subst hf2
  obtain ⟨hpa1, hq1⟩ := h1 _ he1
  obtain ⟨hpa2, hq2⟩ := h2 _ he2
  have hab := nodup_keys_inj h hpa1 hpa2
  exact hPQ (by rw [← hq1, hab, hq2])

theorem nodup_take_map {α β : Type} {l : List α} (f : α → β) (i : Nat)
    (h : (l.map f).Nodup) : ((l.take i).map f).Nodup :=
  List.Nodup.sublist (List.Sublist.map f (List.take_sublist i l)) h

theorem nodup_fst_flexSorted {pa : List (String × Analysis)} (roster : List String)
    (h : (pa.map Prod.fst).Nodup) :
    ((flexSorted pa roster).map Prod.fst).Nodup := by
  unfold flexSorted
  rw [((List.mergeSort_perm _ _).map Prod.fst).nodup_iff]
  rw [List.map_append, List.map_append]
  have hRB : (((buckets pa roster "RB").drop 2).map Prod.fst).Nodup :=
    List.Nodup.sublist (List.Sublist.map _ (List.drop_sublist 2 _)) (nodup_fst_buckets roster ("RB") h)
  have hWR : (((buckets pa roster "WR").drop 2).map Prod.fst).Nodup :=
    List.Nodup.sublist (List.Sublist.map _ (List.drop_sublist 2 _)) (nodup_fst_buckets roster ("WR") h)
  have hTE : (((buckets pa roster "TE").drop 1).map Prod.fst).Nodup :=
    List.Nodup.sublist (List.Sublist.map _ (List.drop_sublist 1 _)) (nodup_fst_buckets roster ("TE") h)
  have mRB : ∀ e ∈ (buckets pa roster "RB").drop 2, e ∈ pa ∧ e.2.position = "RB" :=
    fun e he => ⟨(drop_mem_bucket he).1, (drop_mem_bucket he).2.1⟩
  have mWR : ∀ e ∈ (buckets pa roster "WR").drop 2, e ∈ pa ∧ e.2.position = "WR" :=
    fun e he => ⟨(drop_mem_bucket he).1, (drop_mem_bucket he).2.1⟩
  have mTE : ∀ e ∈ (buckets pa roster "TE").drop 1, e ∈ pa ∧ e.2.position = "TE" :=
    fun e he => ⟨(drop_mem_bucket he).1, (drop_mem_bucket he).2.1⟩
  refine (hRB.append hWR (disjoint_by_position h mRB mWR (by decide))).append hTE ?_
  rw [List.disjoint_append_left]
  exact ⟨disjoint_by_position h mRB mTE (by decide),
    disjoint_by_position h mWR mTE (by decide)⟩

theorem disjoint_other_take_flex {pa : List (String × Analysis)} {roster : List String}
    {pos : String} {i : Nat} (h : (pa.map Prod.fst).Nodup)
    (h1 : pos ≠ "RB") (h2 : pos ≠ "WR") (h3 : pos ≠ "TE") :
    (((buckets pa roster pos).take i).map Prod.fst).Disjoint
      (((flexSorted pa roster).take 1).map Prod.fst) := by
  intro n hn1 hn2
  obtain ⟨⟨n1, a⟩, he1, hf1⟩ := List.mem_map.mp hn1
  obtain ⟨⟨n2, b⟩, he2, hf2⟩ := List.mem_map.mp hn2
  dsimp only at hf1 hf2
  subst hf1
  subst hf2
  obtain ⟨hpa1, hpos1, -⟩ := take_mem_bucket he1
  obtain ⟨hpa2, hpos2, -⟩ := flex_mem_pa (List.mem_of_mem_take he2)
  have hab := nodup_keys_inj h hpa1 hpa2
  rcases hpos2 with hp | hp | hp
  · exact h1 (by rw [← hpos1, hab, hp])
  · exact h2 (by rw [← hpos1, hab, hp])
  · exact h3 (by rw [← hpos1, hab, hp])

theorem disjoint_rb_take_flex {pa : List (String × Analysis)} {roster : List String}
    (h : (pa.map Prod.fst).Nodup) :
    (((buckets pa roster "RB").take 2).map Prod.fst).Disjoint
      (((flexSorted pa roster).take 1).map Prod.fst) := by
  intro n hn1 hn2
  obtain ⟨⟨n2, b⟩, he2, hf2⟩ := List.mem_map.mp hn2
  dsimp only at hf2
  subst hf2
  rcases mem_flexSorted_cases (List.mem_of_mem_take he2) with hcase | hcase | hcase
  · exact bucket_take_drop_disjoint 2 h hn1 (List.mem_map.mpr ⟨(n2, b), hcase, rfl⟩)
  · obtain ⟨⟨n1, a⟩, he1, hf1⟩ := List.mem_map.mp hn1
    dsimp only at hf1
    subst hf1
    obtain ⟨hpa1, hpos1, -⟩ := take_mem_bucket he1
    obtain ⟨hpa2, hpos2, -⟩ := drop_mem_bucket hcase
    have hab := nodup_keys_inj h hpa1 hpa2
    exact absurd (by rw [← hpos1, hab, hpos2] : ("RB" : String) = "WR") (by decide)
  · obtain ⟨⟨n1, a⟩, he1, hf1⟩ := List.mem_map.mp hn1
    dsimp only at hf1
    subst hf1
    obtain ⟨hpa1, hpos1, -⟩ := take_mem_bucket he1
    obtain ⟨hpa2, hpos2, -⟩ := drop_mem_bucket hcase
    have hab := nodup_keys_inj h hpa1 hpa2
    exact absurd (by rw [← hpos1, hab, hpos2] : ("RB" : String) = "TE") (by decide)

theorem disjoint_wr_take_flex {pa : List (String × Analysis)} {roster : List String}
    (h : (pa.map Prod.fst).Nodup) :
    (((buckets pa roster "WR").take 2).map Prod.fst).Disjoint
      (((flexSorted pa roster).take 1).map Prod.fst) := by
  intro n hn1 hn2
  obtain ⟨⟨n2, b⟩, he2, hf2⟩ := List.mem_map.mp hn2
  dsimp only at hf2
  subst hf2
  rcases mem_flexSorted_cases (List.mem_of_mem_take he2) with hcase | hcase | hcase
  · obtain ⟨⟨n1, a⟩, he1, hf1⟩ := List.mem_map.mp hn1
    dsimp only at hf1
    subst hf1
    obtain ⟨hpa1, hpos1, -⟩ := take_mem_bucket he1
    obtain ⟨hpa2, hpos2, -⟩ := drop_mem_bucket hcase
    have hab := nodup_keys_inj h hpa1 hpa2
    exact absurd (by rw [← hpos1, hab, hpos2] : ("WR" : String) = "RB") (by decide)
  · exact bucket_take_drop_disjoint 2 h hn1 (List.mem_map.mpr ⟨(n2, b), hcase, rfl⟩)
  · obtain ⟨⟨n1, a⟩, he1, hf1⟩ := List.mem_map.mp hn1
    dsimp only at hf1
    subst hf1
    obtain ⟨hpa1, hpos1, -⟩ := take_mem_bucket he1
    obtain ⟨hpa2, hpos2, -⟩ := drop_mem_bucket hcase
    have hab := nodup_keys_inj h hpa1 hpa2
    exact absurd (by rw [← hpos1, hab, hpos2] : ("WR" : String) = "TE") (by decide)

theorem disjoint_flex_te_take {pa : List (String × Analysis)} {roster : List String}
    (h : (pa.map Prod.fst).Nodup) :
    (((flexSorted pa roster).take 1).map Prod.fst).Disjoint
      (((buckets pa roster "TE").take 1).map Prod.fst) := by
  intro n hn2 hn1
  obtain ⟨⟨n2, b⟩, he2, hf2⟩ := List.mem_map.mp hn2
  dsimp only at hf2
  subst hf2
  rcases mem_flexSorted_cases (List.mem_of_mem_take he2) with hcase | hcase | hcase
  · obtain ⟨⟨n1, a⟩, he1, hf1⟩ := List.mem_map.mp hn1
    dsimp only at hf1
    subst hf1
    obtain ⟨hpa1, hpos1, -⟩ := take_mem_bucket he1
    obtain ⟨hpa2, hpos2, -⟩ := drop_mem_bucket hcase
    have hab := nodup_keys_inj h hpa1 hpa2
    exact absurd (by rw [← hpos1, hab, hpos2] : ("TE" : String) = "RB") (by decide)
  · obtain ⟨⟨n1, a⟩, he1, hf1⟩ := List.mem_map.mp hn1
    dsimp only at hf1
    subst hf1
    obtain ⟨hpa1, hpos1, -⟩ := take_mem_bucket he1
    obtain ⟨hpa2, hpos2, -⟩ := drop_mem_bucket hcase
    have hab := nodup_keys_inj h hpa1 hpa2
    exact absurd (by rw [← hpos1, hab, hpos2] : ("TE" : String) = "WR") (by decide)
  · exact bucket_take_drop_disjoint 1 h hn1 (List.mem_map.mpr ⟨(n2, b), hcase, rfl⟩)

theorem slotNames_nodup {pa : List (String × Analysis)} (roster : List String)
    (h : (pa.map Prod.fst).Nodup) :
    ((slotsList (generate_complete_lineup pa roster)).map Prod.fst).Nodup := by
  rw [slotsList_eq]
  simp only [List.map_append]
  have mQB : ∀ e ∈ (buckets pa roster "QB").take 1, e ∈ pa ∧ e.2.position = "QB" :=
    fun e he => ⟨(take_mem_bucket he).1, (take_mem_bucket he).2.1⟩
  have mRB : ∀ e ∈ (buckets pa roster "RB").take 2, e ∈ pa ∧ e.2.position = "RB" :=
    fun e he => ⟨(take_mem_bucket he).1, (take_mem_bucket he).2.1⟩
  have mWR : ∀ e ∈ (buckets pa roster "WR").take 2, e ∈ pa ∧ e.2.position = "WR" :=
    fun e he => ⟨(take_mem_bucket he).1, (take_mem_bucket he).2.1⟩
  have mTE : ∀ e ∈ (buckets pa roster "TE").take 1, e ∈ pa ∧ e.2.position = "TE" :=
    fun e he => ⟨(take_mem_bucket he).1, (take_mem_bucket he).2.1⟩
  have mK : ∀ e ∈ (buckets pa roster "K").take 1, e ∈ pa ∧ e.2.position = "K" :=
    fun e he => ⟨(take_mem_bucket he).1, (take_mem_bucket he).2.1⟩
  have mDF : ∀ e ∈ (buckets pa roster "DEF").take 1, e ∈ pa ∧ e.2.position = "DEF" :=
    fun e he => ⟨(take_mem_bucket he).1, (take_mem_bucket he).2.1⟩
  have hqb := nodup_take_map Prod.fst 1 (nodup_fst_buckets roster ("QB") h)
  have hrb := nodup_take_map Prod.fst 2 (nodup_fst_buckets roster ("RB") h)
  have hwr := nodup_take_map Prod.fst 2 (nodup_fst_buckets roster ("WR") h)
  have hte := nodup_take_map Prod.fst 1 (nodup_fst_buckets roster ("TE") h)
  have hk := nodup_take_map Prod.fst 1 (nodup_fst_buckets roster ("K") h)
  have hdf := nodup_take_map Prod.fst 1 (nodup_fst_buckets roster ("DEF") h)
  have hfx := nodup_take_map Prod.fst 1 (nodup_fst_flexSorted roster h)
  have nKD := hk.append hdf (disjoint_by_position h mK mDF (by decide))
  have nTKD := hte.append nKD (by
    rw [List.disjoint_append_right]
    exact ⟨disjoint_by_position h mTE mK (by decide),
      disjoint_by_position h mTE mDF (by decide)⟩)
  have nFX := hfx.append nTKD (by
    rw [List.disjoint_append_right, List.disjoint_append_right]
    exact ⟨disjoint_flex_te_take h,
      (disjoint_other_take_flex h (by decide) (by decide) (by decide)).symm,
      (disjoint_other_take_flex h (by decide) (by decide) (by decide)).symm⟩)
  have nWR := hwr.append nFX (by
    rw [List.disjoint_append_right, List.disjoint_append_right,
      List.disjoint_append_right]
    exact ⟨disjoint_wr_take_flex h,
      disjoint_by_position h mWR mTE (by decide),
      disjoint_by_position h mWR mK (by decide),
      disjoint_by_position h mWR mDF (by decide)⟩)
  have nRB := hrb.append nWR (by
    rw [List.disjoint_append_right, List.disjoint_append_right,
      List.disjoint_append_right, List.disjoint_append_right]
    exact ⟨disjoint_by_position h mRB mWR (by decide),
      disjoint_rb_take_flex h,
      disjoint_by_position h mRB mTE (by decide),
      disjoint_by_position h mRB mK (by decide),
      disjoint_by_position h mRB mDF (by decide)⟩)
  exact hqb.append nRB (by
    rw [List.disjoint_append_right, List.disjoint_append_right,
      List.disjoint_append_right, List.disjoint_append_right,
      List.disjoint_append_right]
    exact ⟨disjoint_by_position h mQB mRB (by decide),
      disjoint_by_position h mQB mWR (by decide),
      disjoint_other_take_flex h (by decide) (by decide) (by decide),
      disjoint_by_position h mQB mTE (by decide),
      disjoint_by_position h mQB mK (by decide),
      disjoint_by_position h mQB mDF (by decide)⟩)

theorem slot_mem_pa {pa : List (String × Analysis)} {roster : List String}
    {e : String × Analysis}
    (he : e ∈ slotsList (generate_complete_lineup pa roster)) :
    e ∈ pa ∧ ¬(e.1 ∈ roster ∧ e.2.score < 0) := by
  rw [slotsList_eq] at he
  simp only [List.mem_append] at he
  rcases he with h | h | h | h | h | h | h
  · exact ⟨(take_mem_bucket h).1, (take_mem_bucket h).2.2⟩
  · exact ⟨(take_mem_bucket h).1, (take_mem_bucket h).2.2⟩
  · exact ⟨(take_mem_bucket h).1, (take_mem_bucket h).2.2⟩
  · have := flex_mem_pa (List.mem_of_mem_take h)
    exact ⟨this.1, this.2.2⟩
  · exact ⟨(take_mem_bucket h).1, (take_mem_bucket h).2.2⟩
  · exact ⟨(take_mem_bucket h).1, (take_mem_bucket h).2.2⟩
  · exact ⟨(take_mem_bucket h).1, (take_mem_bucket h).2.2⟩

theorem bench_eq (pa : List (String × Analysis)) (roster : List String) :
    (generate_complete_lineup pa roster).bench =
      (pa.filter (fun e =>
        !(decide (e.1 ∈ (slotsList (generate_complete_lineup pa roster)).map Prod.fst)))).mergeSort
        scoreDescLE := rfl

theorem bench_names_perm (pa : List (String × Analysis)) (roster : List String) :
    (((generate_complete_lineup pa roster).bench).map Prod.fst).Perm
      ((pa.map Prod.fst).filter (fun n =>
        !(decide (n ∈ (slotsList (generate_complete_lineup pa roster)).map Prod.fst)))) := by
  rw [bench_eq]
  refine ((List.mergeSort_perm _ scoreDescLE).map Prod.fst).trans ?_
  rw [List.filter_map]
  exact List.Perm.refl _

theorem neg_roster_not_in_slots {pa : List (String × Analysis)} (roster : List String)
    (h : (pa.map Prod.fst).Nodup) {n : String} {a : Analysis}
    (hmem : (n, a) ∈ pa) (hr : n ∈ roster) (hs : a.score < 0) :
    n ∉ (slotsList (generate_complete_lineup pa roster)).map Prod.fst := by
  intro hn
  obtain ⟨⟨n1, b⟩, he, hf⟩ := List.mem_map.mp hn
  dsimp only at hf
  subst hf
  obtain ⟨hpa, hok⟩ := slot_mem_pa he
  have hab := nodup_keys_inj h hpa hmem
  exact hok ⟨hr, by simpa [hab] using hs⟩

theorem bench_names_iff (pa : List (String × Analysis)) (roster : List String)
    (n : String) :
    n ∈ ((generate_complete_lineup pa roster).bench).map Prod.fst ↔
      (n ∈ pa.map Prod.fst ∧
        n ∉ (slotsList (generate_complete_lineup pa roster)).map Prod.fst) := by
  rw [(bench_names_perm pa roster).mem_iff, List.mem_filter]
  simp only [Bool.not_eq_true', decide_eq_false_iff_not]

/-- C10: with distinct analysis keys, the named starting slots of the
generated lineup hold pairwise distinct player names, the named slots plus
the bench are exactly a permutation of the analysis keys (so every analyzed
player lands in exactly one location), and a roster player with a negative
score is excluded from every named slot but still appears on the bench. -/
theorem lineup_partition (pa : List (String × Analysis)) (roster : List String)
    (h : (pa.map Prod.fst).Nodup) :
    ((slotsList (generate_complete_lineup pa roster)).map Prod.fst).Nodup ∧
    (((slotsList (generate_complete_lineup pa roster)).map Prod.fst ++
      ((generate_complete_lineup pa roster).bench).map Prod.fst).Perm
      (pa.map Prod.fst)) ∧
    (∀ n a, (n, a) ∈ pa → n ∈ roster → a.score < 0 →
      n ∉ (slotsList (generate_complete_lineup pa roster)).map Prod.fst ∧
      n ∈ ((generate_complete_lineup pa roster).bench).map Prod.fst) := by
  have hslot := slotNames_nodup roster h
  have hbn : (((generate_complete_lineup pa roster).bench).map Prod.fst).Nodup :=
    (bench_names_perm pa roster).nodup_iff.mpr (h.filter _)
  have hsub : ∀ m ∈ (slotsList (generate_complete_lineup pa roster)).map Prod.fst,
      m ∈ pa.map Prod.fst := by
    intro m hm
    obtain ⟨e, he, hf⟩ := List.mem_map.mp hm
    exact List.mem_map.mpr ⟨e, (slot_mem_pa he).1, hf⟩
  refine ⟨hslot, ?_, ?_⟩
  · rw [List.perm_ext_iff_of_nodup (hslot.append hbn ?disj) h]
    case disj =>
      intro m hm1 hm2
      exact ((bench_names_iff pa roster m).mp hm2).2 hm1
    intro m
    rw [List.mem_append, bench_names_iff]
    constructor
    · rintro (hm | ⟨hm, -⟩)
      · exact hsub m hm
      · exact hm
    · intro hm
      by_cases hs : m ∈ (slotsList (generate_complete_lineup pa roster)).map Prod.fst
      · exact Or.inl hs
      · exact Or.inr ⟨hm, hs⟩
  · intro n a hmem hr hs
    have hnot := neg_roster_not_in_slots roster h hmem hr hs
    exact ⟨hnot, (bench_names_iff pa roster n).mpr
      ⟨List.mem_map.mpr ⟨(n, a), hmem, rfl⟩, hnot⟩⟩

/-- A minimal analysis record at a given position and score, for concrete
lineup inputs. -/
def mkAn (pos : String) (s : Int) : Analysis :=
  { name := "", team := "", position := pos, game_total := none, spread := none,
    td_odds := none, reception_odds := none, rush_odds := none, score := s,
    insights := [], flex_eligible := false, has_betting_data := false }

/-- A concrete analysis dict for lineup witnesses: a QB, an RB, and an
injury-excluded RB at score -100. -/
def demoPA : List (String × Analysis) :=
  [("Patrick Mahomes", mkAn ("QB") 5), ("Saquon Barkley", mkAn ("RB") 4),
   ("Joe Mixon", mkAn ("RB") (-100))]

/-- The roster names for the lineup witnesses. -/
def demoRoster : List String := ["Patrick Mahomes", "Saquon Barkley", "Joe Mixon"]

/-- Witness for C10 at a concrete analysis dict and roster. -/
theorem lineup_partition_witness :
    ((slotsList (generate_complete_lineup demoPA demoRoster)).map Prod.fst).Nodup ∧
    (((slotsList (generate_complete_lineup demoPA demoRoster)).map Prod.fst ++
      ((generate_complete_lineup demoPA demoRoster).bench).map Prod.fst).Perm
      (demoPA.map Prod.fst)) ∧
    ("Joe Mixon" : String) ∉
      (slotsList (generate_complete_lineup demoPA demoRoster)).map Prod.fst ∧
    ("Joe Mixon" : String) ∈
      ((generate_complete_lineup demoPA demoRoster).bench).map Prod.fst := by
  obtain ⟨h1, h2, h3⟩ := lineup_partition demoPA demoRoster (by decide)
  obtain ⟨h4, h5⟩ := h3 ("Joe Mixon") (mkAn ("RB") (-100)) (by decide) (by decide) (by decide)
  exact ⟨h1, h2, h4, h5⟩

/-- The all-zero decision weights (the defaults of `settings.py`). -/
def demoCfg : Config :=
  { injury_weight := 0, matchup_weight := 0, recent_performance_weight := 0,
    weather_weight := 0 }

/-- An OUT injury record with unknown probability of playing. -/
def demoOutInfo : InjuryInfo :=
  { status := InjuryStatus.out, probability_of_playing := none }

/-- A week-5 projection of 10 points. -/
def demoProj : PlayerProjection :=
  { week := 5, projected_points := 10, confidence := 1, timestamp := 0 }

/-- An OUT player with a current-week projection of 10 points and no stats
(for the C1 counterexample on the evaluator path). -/
def demoOutPlayer : Player :=
  { name := "Sam LaPorta", position := Position.TE,
    injury_info := some demoOutInfo,
    stats := [], projections := [demoProj], matchup := none }

/-- C1 counterexample: an OUT player evaluated on the evaluator path gets
an injury adjustment of -50 but a total score of 10 (the total is the base
projection, floored at 0, with the default zero weights), so the claimed
"total score of at most -50" is false. -/
theorem out_player_evaluator_counterexample :
    demoOutPlayer.injury_info.map InjuryInfo.status = some InjuryStatus.out ∧
    evaluate_injury_risk demoOutPlayer.injury_info = -50 ∧
    (evaluate_player demoCfg demoOutPlayer 5 none).total_score = 10 ∧
    ¬ ((evaluate_player demoCfg demoOutPlayer 5 none).total_score ≤ -50) := by
  have h : (evaluate_player demoCfg demoOutPlayer 5 none).total_score =
      calculate_total_score demoCfg 10 0 (-50) 0 0 := rfl
  have hc : ¬(demoCfg.matchup_weight ≠ 0 ∨ demoCfg.injury_weight ≠ 0 ∨
      demoCfg.weather_weight ≠ 0 ∨ demoCfg.recent_performance_weight ≠ 0) := by
    simp [demoCfg]
  have h2 : calculate_total_score demoCfg 10 0 (-50) 0 0 = 10 := by
    unfold calculate_total_score
    dsimp only
    rw [if_neg hc]
    exact max_eq_right (by norm_num)
  refine ⟨rfl, rfl, h.trans h2, ?_⟩
  rw [h, h2]
  norm_num

/-- C1 (amended): for a player whose injury status is OUT or IR, the
market-odds path forces the final score to exactly -100 regardless of any
positive market signal; the evaluator path assigns an injury adjustment of
-50 while its total score is clamped to be at least 0 (so the evaluator
total is never at most -50); and a roster player whose score is negative —
in particular one at -100 — never appears in a filled starting slot of the
assembled lineup. -/
theorem injury_exclusion :
    (∀ (a : Analysis) (info : InjuryInfo),
      info.status = InjuryStatus.out ∨ info.status = InjuryStatus.ir →
      (applyInjuryOverlay a (some info)).score = -100) ∧
    (∀ (p : BatchPlayer) (ws we : Int) (info : InjuryInfo),
      p.injury_info = some info →
      info.status = InjuryStatus.out ∨ info.status = InjuryStatus.ir →
      (processPlayer p ws we).score = -100) ∧
    (∀ info : InjuryInfo,
      info.status = InjuryStatus.out ∨ info.status = InjuryStatus.ir →
      evaluate_injury_risk (some info) = -50) ∧
    (∀ (cfg : Config) (b m i w t : Rat), 0 ≤ calculate_total_score cfg b m i w t) ∧
    (∀ (pa : List (String × Analysis)) (roster : List String) (n : String) (a : Analysis),
      (pa.map Prod.fst).Nodup → (n, a) ∈ pa → n ∈ roster → a.score < 0 →
      n ∉ (slotsList (generate_complete_lineup pa roster)).map Prod.fst) := by
  refine ⟨?_, ?_, ?_, ?_, ?_⟩
  · intro a info hst
    obtain ⟨st, prob⟩ := info
    dsimp only at hst
    rcases hst with rfl | rfl <;> rfl
  · intro p ws we info hp hst
    unfold processPlayer
    rw [hp]
    obtain ⟨st, prob⟩ := info
    dsimp only at hst
    rcases hst with rfl | rfl <;> rfl
  · intro info hst
    obtain ⟨st, prob⟩ := info
    dsimp only at hst
    rcases hst with rfl | rfl <;> rfl
  · intro cfg b m i w t
    unfold calculate_total_score
    exact le_max_left 0 _
  · intro pa roster n a hnod hmem hr hs
    exact neg_roster_not_in_slots roster hnod hmem hr hs

/-- An OUT roster player carrying a positive market signal (total 52,
spread +6), for the C1 witness. -/
def demoOutBP : BatchPlayer :=
  { name := "Joe Mixon", team := "Kansas City Chiefs", position := "RB",
    odds_data := demoHighOdds, injury_info := some demoOutInfo }

/-- Witness for C1 (amended) at concrete inputs: the OUT roster player with
a +5 market signal still ends at -100, the evaluator adjustment is -50, the
evaluator total is clamped non-negative, and the -100 roster player is in
no named slot. -/
theorem injury_exclusion_witness :
    (processPlayer demoOutBP 0 100).score = -100 ∧
    evaluate_injury_risk (some demoOutInfo) = -50 ∧
    (0 : Rat) ≤ calculate_total_score demoCfg 10 0 (-50) 0 0 ∧
    ("Joe Mixon" : String) ∉
      (slotsList (generate_complete_lineup demoPA demoRoster)).map Prod.fst := by
  obtain ⟨h1, h2, h3, h4, h5⟩ := injury_exclusion
  exact ⟨h2 demoOutBP 0 100 _ rfl (Or.inl rfl), h3 _ (Or.inl rfl),
    h4 demoCfg 10 0 (-50) 0 0,
    h5 demoPA demoRoster ("Joe Mixon") (mkAn ("RB") (-100)) (by decide) (by decide)
      (by decide) (by decide)⟩

/-- C8: if any exception is raised while evaluating one player (the body of
the `try` block fails), `evaluate_player` returns a `PlayerScore` with
total score 0.0, confidence 0.0 and the error text embedded in the
reasoning string, never propagates the exception (it is a total function),
and batch evaluation always yields one result per input player. -/
theorem evaluate_player_error_handling (cfg : Config) (p : Player) (week : Int)
    (opponent : Option String) (e : String)
    (h : evalBody cfg p week opponent = Except.error e) :
    evaluate_player cfg p week opponent =
      { player := p.name, total_score := 0, base_projection := 0,
        matchup_adjustment := 0, injury_adjustment := 0, weather_adjustment := 0,
        trend_adjustment := 0, confidence := 0,
        reasoning := "Error in evaluation: " ++ e } ∧
    (∀ players : List Player, (evaluatePlayers cfg players week).length = players.length) := by
  constructor
  · unfold evaluate_player
    rw [h]
  · intro players
    unfold evaluatePlayers
    exact players.length_map _

/-- A player whose evaluation raises: non-empty stats with zero fantasy
points and no projection drive `_get_base_projection` into
`_get_intelligent_fallback_score`, whose `player.stats.points` access
raises `AttributeError`. -/
def demoErrPlayer : Player :=
  { name := "Jerry Jeudy", position := Position.WR, injury_info := none,
    stats := [{ week := 1, fantasy_points := 0 }], projections := [],
    matchup := none }

/-- Witness for C8: the concrete raising player yields the zero/zero score
with the error text, and a one-player batch yields one result. -/
theorem evaluate_player_error_handling_witness :
    evaluate_player demoCfg demoErrPlayer 1 none =
      { player := "Jerry Jeudy", total_score := 0, base_projection := 0,
        matchup_adjustment := 0, injury_adjustment := 0, weather_adjustment := 0,
        trend_adjustment := 0, confidence := 0,
        reasoning := "Error in evaluation: AttributeError: list object has no attribute points" } ∧
    (evaluatePlayers demoCfg [demoErrPlayer] 1).length = 1 := by
  obtain ⟨h1, h2⟩ := evaluate_player_error_handling demoCfg demoErrPlayer 1 none
    ("AttributeError: list object has no attribute points") rfl
  exact ⟨h1, h2 [demoErrPlayer]⟩

theorem updMinStrict_eq (c : Option Int) (p : Int) :
    updMinStrict c p = some (min (c.getD p) p) := by
  cases c with
  | none => simp [updMinStrict]
  | some b =>
    simp only [updMinStrict, Option.getD_some]
    split_ifs with h
    · exact congrArg some (min_eq_right (le_of_lt h)).symm
    · exact congrArg some (min_eq_left (le_of_not_lt h)).symm

theorem updMaxStrict_eq (c : Option Rat) (pt : Rat) :
    updMaxStrict c pt = some (max (c.getD pt) pt) := by
  cases c with
  | none => simp [updMaxStrict]
  | some b =>
    simp only [updMaxStrict, Option.getD_some]
    split_ifs with h
    · exact congrArg some (max_eq_right (le_of_lt h)).symm
    · exact congrArg some (max_eq_left (le_of_not_lt h)).symm

theorem updMinStrict_comm (c : Option Int) (p q : Int) :
    updMinStrict (updMinStrict c p) q = updMinStrict (updMinStrict c q) p := by
  simp only [updMinStrict_eq, Option.getD_some, Option.some.injEq]
  cases c with
  | none =>
    simp only [Option.getD_none]
    rw [min_self, min_self, min_comm]
  | some b =>
    simp only [Option.getD_some]
    exact min_right_comm b p q

theorem updMaxStrict_comm (c : Option Rat) (p q : Rat) :
    updMaxStrict (updMaxStrict c p) q = updMaxStrict (updMaxStrict c q) p := by
  simp only [updMaxStrict_eq, Option.getD_some, Option.some.injEq]
  cases c with
  | none =>
    simp only [Option.getD_none]
    rw [max_self, max_self, max_comm]
  | some b =>
    simp only [Option.getD_some]
    exact sup_right_comm b p q

theorem updMaxOr0_comm (c : Option Rat) (p q : Rat) :
    updMaxOr0 (updMaxOr0 c p) q = updMaxOr0 (updMaxOr0 c q) p := by
  simp only [updMaxOr0, Option.getD_some, Option.some.injEq]
  exact sup_right_comm _ p q

theorem updMinP_comm (c : Option Int) (p q : Int) :
    updMinP (updMinP c p) q = updMinP (updMinP c q) p := by
  cases c with
  | none => simp only [updMinP, Option.some.injEq]; exact min_comm p q
  | some b => simp only [updMinP, Option.some.injEq]; exact min_right_comm b p q

theorem applyUpd_comm (acc : PropAcc) (u v : CellUpd) :
    applyUpd (applyUpd acc u) v = applyUpd (applyUpd acc v) u := by
  cases u <;> cases v <;>
    simp only [applyUpd] <;>
    first
      | rfl
      | rw [updMinStrict_comm]
      | rw [updMaxStrict_comm]
      | rw [updMaxOr0_comm]
      | rw [updMinP_comm]

theorem propStep_comm (pos : String) (acc : PropAcc) (p q : PropEntry) :
    propStep pos (propStep pos acc p) q = propStep pos (propStep pos acc q) p := by
  unfold propStep
  cases hp : classifyProp pos p with
  | none =>
    cases hq : classifyProp pos q with
    | none => rfl
    | some v => rfl
  | some u =>
    cases hq : classifyProp pos q with
    | none => rfl
    | some v => exact applyUpd_comm acc u v

/-- C6: `analyze_player_betting_data` is a pure function of its inputs
(deterministic by construction), and permuting the order of the prop
entries in the odds list leaves the entire returned analysis — score and
insights included — unchanged, because the collection pass keeps only the
single best line per market (a fold by order-insensitive min/max updates)
and all scoring reads those best values. -/
theorem analyze_perm_invariant (pn team : String) (gl : Option GameLines)
    (odds odds2 : List PropEntry) (pos : String) (ws we : Int)
    (h : odds.Perm odds2) :
    analyze_player_betting_data pn team { game_lines := gl, odds := odds } pos ws we =
      analyze_player_betting_data pn team { game_lines := gl, odds := odds2 } pos ws we := by
  have hfold : odds.foldl (propStep pos) initAcc = odds2.foldl (propStep pos) initAcc :=
    h.foldl_eq' (fun x _ y _ z => propStep_comm pos z x y) initAcc
  have hlen : odds.isEmpty = odds2.isEmpty := by
    cases odds with
    | nil =>
      cases odds2 with
      | nil => rfl
      | cons b t => exact absurd h.length_eq (by simp)
    | cons a t =>
      cases odds2 with
      | nil => exact absurd h.length_eq (by simp)
      | cons b t2 => rfl
  cases gl with
  | none =>
    simp only [analyze_player_betting_data]
    rw [hfold, hlen]
  | some g =>
    simp only [analyze_player_betting_data]
    split_ifs with hf
    · rfl
    · rw [hfold]

/-- A reception prop for the C6 witness. -/
def demoProp1 : PropEntry :=
  { market := "player_receptions", outcome := "Over", price := none, point := some 5 }

/-- An anytime-TD prop for the C6 witness. -/
def demoProp2 : PropEntry :=
  { market := "player_anytime_td", outcome := "Yes", price := some (-120), point := none }

/-- Witness for C6: swapping two concrete prop entries leaves the analysis
unchanged. -/
theorem analyze_perm_invariant_witness :
    analyze_player_betting_data ("P") ("T")
        { game_lines := none, odds := [demoProp1, demoProp2] } ("WR") 0 100 =
      analyze_player_betting_data ("P") ("T")
        { game_lines := none, odds := [demoProp2, demoProp1] } ("WR") 0 100 :=
  analyze_perm_invariant ("P") ("T") none [demoProp1, demoProp2] [demoProp2, demoProp1]
    ("WR") 0 100 (List.Perm.swap demoProp2 demoProp1 [])

theorem keyLE_total (a b : Int × Bool × Bool × String) :
    (keyLE a b || keyLE b a) = true := by
  simp only [keyLE, Bool.or_eq_true, Bool.and_eq_true, decide_eq_true_eq]
  rcases lt_trichotomy a.1 b.1 with h | h | h
  · exact Or.inl (Or.inl h)
  · rcases lt_trichotomy a.2.1 b.2.1 with h2 | h2 | h2
    · exact Or.inl (Or.inr ⟨h, Or.inl h2⟩)
    · rcases lt_trichotomy a.2.2.1 b.2.2.1 with h3 | h3 | h3
      · exact Or.inl (Or.inr ⟨h, Or.inr ⟨h2, Or.inl h3⟩⟩)
      · rcases le_total a.2.2.2 b.2.2.2 with h4 | h4
        · exact Or.inl (Or.inr ⟨h, Or.inr ⟨h2, Or.inr ⟨h3, h4⟩⟩⟩)
        · exact Or.inr (Or.inr ⟨h.symm, Or.inr ⟨h2.symm, Or.inr ⟨h3.symm, h4⟩⟩⟩)
      · exact Or.inr (Or.inr ⟨h.symm, Or.inr ⟨h2.symm, Or.inl h3⟩⟩)
    · exact Or.inr (Or.inr ⟨h.symm, Or.inl h2⟩)
  · exact Or.inr (Or.inl h)

theorem keyLE_trans (a b c : Int × Bool × Bool × String)
    (h1 : keyLE a b = true) (h2 : keyLE b c = true) : keyLE a c = true := by
  simp only [keyLE, Bool.or_eq_true, Bool.and_eq_true, decide_eq_true_eq] at h1 h2 ⊢
  rcases h1 with h1 | ⟨e1, h1⟩
  · rcases h2 with h2 | ⟨e2, h2⟩
    · exact Or.inl (h1.trans h2)
    · exact Or.inl (lt_of_lt_of_le h1 (le_of_eq e2))
  · rcases h2 with h2 | ⟨e2, h2⟩
    · exact Or.inl (lt_of_le_of_lt (le_of_eq e1) h2)
    · refine Or.inr ⟨e1.trans e2, ?_⟩
      rcases h1 with h1 | ⟨f1, h1⟩
      · rcases h2 with h2 | ⟨f2, h2⟩
        · exact Or.inl (h1.trans h2)
        · exact Or.inl (lt_of_lt_of_le h1 (le_of_eq f2))
      · rcases h2 with h2 | ⟨f2, h2⟩
        · exact Or.inl (lt_of_le_of_lt (le_of_eq f1) h2)
        · refine Or.inr ⟨f1.trans f2, ?_⟩
          rcases h1 with h1 | ⟨g1, h1⟩
          · rcases h2 with h2 | ⟨g2, h2⟩
            · exact Or.inl (h1.trans h2)
            · exact Or.inl (lt_of_lt_of_le h1 (le_of_eq g2))
          · rcases h2 with h2 | ⟨g2, h2⟩
            · exact Or.inl (lt_of_le_of_lt (le_of_eq g1) h2)
            · exact Or.inr ⟨g1.trans g2, h1.trans h2⟩

theorem sortBucket_sorted (roster : List String) (l : List (String × Analysis)) :
    (sortBucket roster l).Pairwise (fun x y => bucketLE roster x y = true) := by
  unfold sortBucket
  exact @List.sorted_mergeSort _ (bucketLE roster)
    (fun a b c hab hbc =>
      keyLE_trans (sortKey roster c) (sortKey roster b) (sortKey roster a) hbc hab)
    (fun a b => keyLE_total (sortKey roster b) (sortKey roster a))
    l

/-- An RB analysis tied at score 4 with real betting data (for C2). -/
def dataAn : Analysis := { mkAn ("RB") 4 with has_betting_data := true }

/-- The rostered, data-backed side of the C2 scenario. -/
def eRostered : String × Analysis := ("Saquon Barkley", dataAn)

/-- The data-less free-agent side of the C2 scenario. -/
def eFreeAgent : String × Analysis := ("Zay Flowers", mkAn ("RB") 4)

/-- C2 (amended): each position bucket is sorted (stably, hence fully
deterministically) under the descending Python key order — score first,
then the has-betting-data flag (true first), then roster membership (true
first), then the name in REVERSE alphabetical (descending) order, because
`reverse=True` flips every component of the key, the name included; in
particular two players tied at score 4 sort the on-roster data-backed one
before the data-less free agent. -/
theorem bucket_sort_deterministic :
    (∀ (roster : List String) (l : List (String × Analysis)),
      (sortBucket roster l).Pairwise (fun x y => bucketLE roster x y = true) ∧
      (sortBucket roster l).Perm l) ∧
    (∀ (roster : List String) (x y : String × Analysis),
      x.2.score = y.2.score → x.2.has_betting_data = true →
      y.2.has_betting_data = false →
      bucketLE roster x y = true ∧ bucketLE roster y x = false) ∧
    (∀ (roster : List String) (x y : String × Analysis),
      x.2.score = y.2.score → x.2.has_betting_data = y.2.has_betting_data →
      decide (x.1 ∈ roster) = true → decide (y.1 ∈ roster) = false →
      bucketLE roster x y = true ∧ bucketLE roster y x = false) ∧
    (∀ (roster : List String) (x y : String × Analysis),
      x.2.score = y.2.score → x.2.has_betting_data = y.2.has_betting_data →
      decide (x.1 ∈ roster) = decide (y.1 ∈ roster) →
      (bucketLE roster x y = true ↔ y.1 ≤ x.1)) ∧
    sortBucket ["Saquon Barkley"] [eFreeAgent, eRostered] = [eRostered, eFreeAgent] := by
  refine ⟨fun roster l => ⟨sortBucket_sorted roster l, List.mergeSort_perm l _⟩,
    ?_, ?_, ?_, by decide⟩
  · intro roster x y hs hx hy
    constructor
    · simp only [bucketLE, keyLE, sortKey, Bool.or_eq_true, Bool.and_eq_true,
        decide_eq_true_eq]
      exact Or.inr ⟨hs.symm, Or.inl (by rw [hx, hy]; decide)⟩
    · rw [Bool.eq_false_iff]
      intro hcon
      simp only [bucketLE, keyLE, sortKey, Bool.or_eq_true, Bool.and_eq_true,
        decide_eq_true_eq] at hcon
      rcases hcon with h | ⟨e1, h2 | ⟨e2, h3⟩⟩
      · rw [hs] at h
        exact absurd h (lt_irrefl _)
      · rw [hx, hy] at h2
        exact absurd h2 (by decide)
      · rw [hx, hy] at e2
        exact absurd e2 (by decide)
  · intro roster x y hs hd hx hy
    constructor
    · simp only [bucketLE, keyLE, sortKey, Bool.or_eq_true, Bool.and_eq_true,
        decide_eq_true_eq]
      refine Or.inr ⟨hs.symm, Or.inr ⟨hd.symm, Or.inl ?_⟩⟩
      rw [hx, hy]
      decide
    · rw [Bool.eq_false_iff]
      intro hcon
      simp only [bucketLE, keyLE, sortKey, Bool.or_eq_true, Bool.and_eq_true,
        decide_eq_true_eq] at hcon
      rcases hcon with h | ⟨e1, h2 | ⟨e2, h3 | ⟨e3, h4⟩⟩⟩
      · rw [hs] at h
        exact absurd h (lt_irrefl _)
      · rw [hd] at h2
        exact absurd h2 (lt_irrefl _)
      · rw [hx, hy] at h3
        exact absurd h3 (by decide)
      · rw [hx, hy] at e3
        exact absurd e3 (by decide)
  · intro roster x y hs hd hr
    simp only [bucketLE, keyLE, sortKey, Bool.or_eq_true, Bool.and_eq_true,
      decide_eq_true_eq]
    constructor
    · rintro (h | ⟨e1, h2 | ⟨e2, h3 | ⟨e3, h4⟩⟩⟩)
      · rw [hs] at h
        exact absurd h (lt_irrefl _)
      · rw [hd] at h2
        exact absurd h2 (lt_irrefl _)
      · rw [hr] at h3
        exact absurd h3 (lt_irrefl _)
      · exact h4
    · intro h
      exact Or.inr ⟨hs.symm, Or.inr ⟨hd.symm, Or.inr ⟨hr.symm, h⟩⟩⟩

/-- Witness for C2 at concrete tied entries: the data-backed roster player
precedes, and with every flag tied the larger name precedes. -/
theorem bucket_sort_deterministic_witness :
    bucketLE ["Saquon Barkley"] eRostered eFreeAgent = true ∧
    bucketLE ["Saquon Barkley"] eFreeAgent eRostered = false ∧
    (bucketLE [] ("bob", mkAn ("RB") 4) ("alice", mkAn ("RB") 4) = true ↔
      ("alice" : String) ≤ "bob") := by
  obtain ⟨h1, h2, h3, h4, h5⟩ := bucket_sort_deterministic
  refine ⟨?_, ?_, ?_⟩
  · exact (h2 ["Saquon Barkley"] eRostered eFreeAgent rfl rfl rfl).1
  · exact (h2 ["Saquon Barkley"] eRostered eFreeAgent rfl rfl rfl).2
  · exact h4 [] ("bob", mkAn ("RB") 4) ("alice", mkAn ("RB") 4) rfl rfl rfl

/-- C2 counterexample: with score, data flag and roster membership all
tied, the sort places the lexicographically larger name first (the key is
compared with `reverse=True`), so the claimed ascending alphabetical
tie-break is false. -/
theorem bucket_sort_name_counterexample :
    sortBucket [] [("alice", mkAn ("RB") 4), ("bob", mkAn ("RB") 4)] =
      [("bob", mkAn ("RB") 4), ("alice", mkAn ("RB") 4)] ∧
    ("alice" : String) < "bob" := by
  exact ⟨by decide, by decide⟩

/-- A one-RB roster for the C3 failing input. -/
def demoWaiverRoster : List RosterP := [{ name := "Tyler Loop", position := "RB" }]

/-- Two clearly better RB free agents for the C3 failing input. -/
def demoWaiverAvail : List RosterP :=
  [{ name := "Avail One", position := "RB" }, { name := "Avail Two", position := "RB" }]

/-- Scores for the C3 failing input: the roster RB at 0, the free agents at
9 and 8 (both more than 5 points better). -/
def demoWaiverPA : List (String × Analysis) :=
  [("Tyler Loop", mkAn ("RB") 0), ("Avail One", mkAn ("RB") 9),
   ("Avail Two", mkAn ("RB") 8)]

/-- C3: evaluating `find_waiver_opportunities` on a roster with one RB
(score 0) and two better RB free agents (scores 9 and 8) emits TWO
suggestions that drop the same roster player for different available
players — the inner `break` of the source only ends the roster scan for
the current available player, so the claimed (and comment-documented)
single suggestion per drop candidate does not hold. -/
theorem waiver_same_drop_bug :
    find_waiver_opportunities demoWaiverRoster demoWaiverAvail demoWaiverPA =
      [{ add_player := "Avail One", add_score := 9, drop_player := "Tyler Loop",
         drop_score := 0, improvement := 9, position := "RB" },
       { add_player := "Avail Two", add_score := 8, drop_player := "Tyler Loop",
         drop_score := 0, improvement := 8, position := "RB" }] ∧
    (find_waiver_opportunities demoWaiverRoster demoWaiverAvail demoWaiverPA).map
      Suggestion.drop_player = ["Tyler Loop", "Tyler Loop"] ∧
    (find_waiver_opportunities demoWaiverRoster demoWaiverAvail demoWaiverPA).map
      Suggestion.add_player = ["Avail One", "Avail Two"] := by
  exact ⟨by decide, by decide, by decide⟩
